import Mathlib

/-!
Shallow embedding of `index.js` of arr-path-fixer, together with proofs
about its matching, locating, parsing, registration, cooldown and dry-run
behaviour.  Machine strings are `String`/`List Char`; JavaScript numbers
are `Nat`/`Int`/`ℚ` (scores are exact rationals); `null`/`undefined`/`NaN`
are modelled with `Option`; JavaScript truthiness is made explicit at each
use site.  Filesystem and HTTP collaborators are explicit parameters; the
HTTP mutations a run performs are collected in a list of `Effect`s.
-/

set_option maxRecDepth 8000

set_option maxHeartbeats 1600000

set_option allowUnsafeReducibility true


/-! ### JavaScript-style primitives -/

/-- A `\w` word character: `[A-Za-z0-9_]`. -/
def isWordChar (c : Char) : Bool :=
  (('a' ≤ c && c ≤ 'z') || ('A' ≤ c && c ≤ 'Z') || ('0' ≤ c && c ≤ '9') || c = '_')

/-- A lowercase-alphanumeric character `[a-z0-9]` (used after `toLowerCase`). -/
def isLowerAlnum (c : Char) : Bool :=
  (('a' ≤ c && c ≤ 'z') || ('0' ≤ c && c ≤ '9'))

/-- An alphanumeric character `[A-Za-z0-9]`. -/
def isAlnumChar (c : Char) : Bool :=
  (('a' ≤ c && c ≤ 'z') || ('A' ≤ c && c ≤ 'Z') || ('0' ≤ c && c ≤ '9'))

/-- A `\s` whitespace character (the cases that occur in release names). -/
def isSpaceChar (c : Char) : Bool :=
  (c = ' ' || c = '\t' || c = '\n' || c = '\r')

/-- Numeric value of a list of decimal digits, as `parseInt` computes it
on an all-digit capture group. -/
def digitsToNat (l : List Char) : Nat :=
  l.foldl (fun acc c => acc * 10 + (c.toNat - '0'.toNat)) 0

/-- `parseInt(g) || 1` for an all-digit capture `g`: `0` is falsy. -/
def jsOr1 (n : Nat) : Nat := if n = 0 then 1 else n

/-- `a || b` for an optional number `a` (with `0`/`NaN`/`undefined` falsy). -/
def jsOrNat (o : Option Nat) (dflt : Nat) : Nat :=
  match o with
  | some n => if n = 0 then dflt else n
  | none => dflt

/-- `parseInt` on a string: leading whitespace skipped, then leading
decimal digits (signs do not occur in the inputs this program feeds it);
`none` models `NaN`. -/
def parseIntJs (s : String) : Option Nat :=
  let d := (s.data.dropWhile isSpaceChar).takeWhile Char.isDigit
  if d.isEmpty then none else some (digitsToNat d)

/-- First truthy string in a `a || b || ''` chain (empty string is falsy). -/
def jsSelectStr : List (Option String) → String
  | [] => ""
  | o :: rest =>
    match o with
    | some s => if s = "" then jsSelectStr rest else s
    | none => jsSelectStr rest

/-- `str.toLowerCase()` (ASCII, which covers the tokens the program tests). -/
def lowerStr (s : String) : String := String.mk (s.data.map Char.toLower)

/-- Whether `pat` occurs as a contiguous substring of `s`
(JavaScript `s.includes(pat)`). -/
def containsSub (s pat : List Char) : Bool :=
  match s with
  | [] => pat.isEmpty
  | _ :: t => pat.isPrefixOf s || containsSub t pat

/-- `path.join(a, b)` for the well-formed inputs the program builds. -/
def pathJoin (a b : String) : String := a ++ "/" ++ b

/-- `path.dirname`: everything before the last `/`, with Node's special
cases for no separator and a root-level path. -/
def dirname (p : String) : String :=
  let pre := p.data.reverse.dropWhile (fun c => !(c = '/'))
  match pre with
  | [] => "."
  | _ :: [] => "/"
  | _ :: rest => String.mk rest.reverse

/-- `path.basename`: everything after the last `/`. -/
def basename (p : String) : String :=
  String.mk ((p.data.reverse.takeWhile (fun c => !(c = '/'))).reverse)

/-- `path.extname`: the suffix of the basename from its last dot, `""` for
dotless names and leading-dot files. -/
def extname (p : String) : String :=
  let baseRev := p.data.reverse.takeWhile (fun c => !(c = '/'))
  let extRev := baseRev.takeWhile (fun c => !(c = '.'))
  match baseRev.drop extRev.length with
  | '.' :: stemRev =>
    if stemRev.isEmpty then "" else String.mk ('.' :: extRev.reverse)
  | _ => ""

/-- Remove the first occurrence of `pat` from `s`
(JavaScript `s.replace(pat, '')` with a plain-string pattern). -/
def removeFirstOccur (s pat : List Char) : List Char :=
  match s with
  | [] => []
  | c :: rest =>
    if pat.isPrefixOf (c :: rest) then (c :: rest).drop pat.length
    else c :: removeFirstOccur rest pat

/-! ### Text Normalizer: `extractYear` and `extractTitleWords` -/

/-- Match of `(19|20)\d{2}` followed by a `\b` boundary at the head of `s`,
returning the year value. -/
def yearHere (s : List Char) : Option Nat :=
  match s with
  | a :: b :: c :: d :: rest =>
    if ((a = '1' && b = '9') || (a = '2' && b = '0')) && c.isDigit && d.isDigit &&
        (match rest with | [] => true | e :: _ => !(isWordChar e)) then
      some (digitsToNat [a, b, c, d])
    else none
  | _ => none

/-- Scanner for the first (leftmost) match of `\b(19|20)\d{2}\b`; the
boolean tracks whether the previous character was a word character. -/
def extractYearAux : List Char → Bool → Option Nat
  | [], _ => none
  | c :: rest, prevWord =>
    if prevWord then extractYearAux rest (isWordChar c)
    else
      match yearHere (c :: rest) with
      | some y => some y
      | none => extractYearAux rest (isWordChar c)

/-- `extractYear(str)`: first `\b(19|20)\d{2}\b` in the original string, as
a number, or `null`. -/
def extractYear (str : String) : Option Int :=
  match extractYearAux str.data false with
  | some y => some (y : Int)
  | none => none

/-- An alternative of one of the `\b(...|...)\b` noise patterns: given the
rest of the input, the candidate match lengths at the current position in
backtracking (greedy-first) order. -/
def TokenAlt : Type := List Char → List Nat

/-- A plain literal alternative. -/
def litP (lit : String) : TokenAlt := fun s =>
  if lit.data.isPrefixOf s then [lit.data.length] else []

/-- A literal with an optional single trailing character (e.g. `1080[pi]?`),
longer match tried first. -/
def litOptP (lit : String) (opts : List Char) : TokenAlt := fun s =>
  if lit.data.isPrefixOf s then
    match s.drop lit.data.length with
    | c :: _ =>
      if opts.contains c then [lit.data.length + 1, lit.data.length]
      else [lit.data.length]
    | [] => [lit.data.length]
  else []

/-- Two literals with an optional single character in between
(e.g. `directors\.?cut`, `vc-?1`), with-character form tried first. -/
def litOptMid (a : String) (mid : Char) (b : String) : TokenAlt := fun s =>
  let w := a.data ++ mid :: b.data
  let wo := a.data ++ b.data
  (if w.isPrefixOf s then [w.length] else []) ++
  (if wo.isPrefixOf s then [wo.length] else [])

/-- The `(19|20)\d{2}` year alternative. -/
def yearAlt : TokenAlt := fun s =>
  match s with
  | a :: b :: c :: d :: _ =>
    if ((a = '1' && b = '9') || (a = '2' && b = '0')) && c.isDigit && d.isDigit then [4]
    else []
  | _ => []

/-- The `s\d+e\d+` episode-marker alternative (input already lowercased). -/
def seAlt : TokenAlt := fun s =>
  match s with
  | 's' :: rest =>
    let d1 := rest.takeWhile Char.isDigit
    if d1.isEmpty then []
    else
      match rest.drop d1.length with
      | 'e' :: rest2 =>
        let d2 := rest2.takeWhile Char.isDigit
        if d2.isEmpty then [] else [1 + d1.length + 1 + d2.length]
      | _ => []
  | _ => []

/-- Whether position `m` of `s` is a `\b` boundary coming after a word
character (end of string, or a non-word character). -/
def boundaryAfterOk (s : List Char) (m : Nat) : Bool :=
  match s.drop m with
  | [] => true
  | c :: _ => !(isWordChar c)

/-- Try the alternatives of one noise pattern at the current position:
first alternative (in source order) whose first candidate length is
followed by a `\b` boundary wins, as in JavaScript alternation with
backtracking. -/
def tryMatchAlts (alts : List TokenAlt) (s : List Char) : Option Nat :=
  alts.findSome? (fun alt => (alt s).find? (fun m => boundaryAfterOk s m))

/-- One global `.replace(/\b(...)\b/g, ' ')` pass.  `fuel` bounds the
recursion (each step consumes at least one character); `prevWord` is the
`\b` context on the original string. -/
def replaceTokensAux (alts : List TokenAlt) : Nat → List Char → Bool → List Char
  | 0, s, _ => s
  | _ + 1, [], _ => []
  | fuel + 1, c :: rest, prevWord =>
    match (if prevWord then none else tryMatchAlts alts (c :: rest)) with
    | some m =>
      let lastConsumed := ((c :: rest).drop (m - 1)).headD c
      ' ' :: replaceTokensAux alts fuel ((c :: rest).drop m) (isWordChar lastConsumed)
    | none => c :: replaceTokensAux alts fuel rest (isWordChar c)

/-- Run one noise-removal pass over the whole string. -/
def runPass (alts : List TokenAlt) (s : List Char) : List Char :=
  replaceTokensAux alts (s.length + 1) s false

/-- The fixed release-group denylist `RELEASE_GROUPS`. -/
def RELEASE_GROUPS : List String :=
  ["lama", "yify", "rarbg", "ettv", "eztv", "sparks", "geckos", "fleet",
   "ntb", "ctrlhd", "epsilon", "fgt", "ion10", "memento", "playbd", "framestor",
   "triton", "unknown", "flux", "smurf", "stringerbell", "kontrast", "psa",
   "turg", "aaa", "welp", "taxes", "entitled", "gp", "privatehd"]

/-- Alternatives of `\b(480|720|1080|2160)[pi]?\b`. -/
def resolutionAlts : List TokenAlt :=
  [litOptP "480" ['p', 'i'], litOptP "720" ['p', 'i'],
   litOptP "1080" ['p', 'i'], litOptP "2160" ['p', 'i']]

/-- Alternatives of the video codec/container pattern, in source order. -/
def videoCodecAlts : List TokenAlt :=
  [litP "bluray", litP "blu-ray", litP "webrip", litP "web-rip", litP "webdl",
   litP "web-dl", litP "hdtv", litP "brrip", litP "dvdrip", litP "remux",
   litP "avc", litP "hevc", litP "x264", litP "x265", litP "h264", litP "h265",
   litOptMid "vc" '-' "1", litP "10bit"]

/-- Alternatives of the audio codec pattern, in source order. -/
def audioCodecAlts : List TokenAlt :=
  [litP "dts", litP "dts-hd", litP "ac3", litP "aac", litP "flac", litP "mp3",
   litP "m4a", litP "truehd", litP "atmos", litP "ma", litP "5.1", litP "7.1",
   litP "2.0"]

/-- Alternatives of the edition/tag pattern, in source order. -/
def tagAlts : List TokenAlt :=
  [litP "repack", litP "proper", litP "extended", litP "unrated",
   litOptMid "directors" '.' "cut", litP "theatrical", litP "imax", litP "3d",
   litP "hdr", litP "hdr10", litOptMid "dolby" '.' "vision", litP "dv"]

/-- Alternatives of the release-group pattern. -/
def releaseGroupAlts : List TokenAlt := RELEASE_GROUPS.map litP

/-- Split on `\s+`, dropping the empty fragments produced at the ends. -/
def splitWsAux : List Char → List Char → List (List Char)
  | [], acc => if acc.isEmpty then [] else [acc.reverse]
  | c :: rest, acc =>
    if isSpaceChar c then
      if acc.isEmpty then splitWsAux rest [] else acc.reverse :: splitWsAux rest []
    else splitWsAux rest (c :: acc)

/-- `extractTitleWords(str)`: the noise-removal pipeline producing the list
of significant (length > 1) lowercase words. -/
def extractTitleWords (str : String) : List String :=
  let s0 := str.data.map Char.toLower
  let s1 := runPass [yearAlt] s0
  let s2 := runPass resolutionAlts s1
  let s3 := runPass videoCodecAlts s2
  let s4 := runPass audioCodecAlts s3
  let s5 := runPass tagAlts s4
  let s6 := runPass releaseGroupAlts s5
  let s7 := runPass [seAlt] s6
  let s8 := s7.map (fun c => if c = '.' || c = '_' || c = '-' then ' ' else c)
  let s9 := s8.map (fun c => if isLowerAlnum c || isSpaceChar c then c else ' ')
  ((splitWsAux s9 []).filter (fun w => 1 < w.length)).map String.mk

/-! ### Match Scorer: `calculateMatchScore` -/

/-- `calculateMatchScore(words1, words2)`: `|set1 ∩ set2| / min(|set1|, |set2|)`
with set semantics via `new Set(...)`, or `0` when either input list is
empty. -/
def calculateMatchScore (words1 words2 : List String) : ℚ :=
  if words1.length = 0 ∨ words2.length = 0 then 0
  else
    let set1 := words1.toFinset
    let set2 := words2.toFinset
    let matchCount := (set1.filter (fun w => w ∈ set2)).card
    (matchCount : ℚ) / ((min set1.card set2.card : Nat) : ℚ)

/-! ### Best-Match Selector: `findBestMatch` -/

/-- The year bonus/penalty applied to a base score: `+0.2` when both years
are truthy and equal, `-0.3` when both are truthy and more than one year
apart. -/
def yearAdjust (targetYear itemYear : Option Int) (base : ℚ) : ℚ :=
  match targetYear, itemYear with
  | some ty, some iy =>
    if ty ≠ 0 ∧ iy ≠ 0 then
      if ty = iy then base + 1/5
      else if 1 < (ty - iy).natAbs then base - 3/10
      else base
    else base
  | _, _ => base

/-- The `score` computed for one candidate of `findBestMatch`'s loop:
word-set score of the extracted titles, year-adjusted; the item year comes
from `getYearFn` when one is supplied, else from the item title's text. -/
def candidateScore {α : Type} (targetWords : List String) (targetYear : Option Int)
    (getTitleFn : α → String) (getYearFn : Option (α → Option Int)) (item : α) : ℚ :=
  yearAdjust targetYear
    (match getYearFn with
     | some f => f item
     | none => extractYear (getTitleFn item))
    (calculateMatchScore targetWords (extractTitleWords (getTitleFn item)))

/-- The body of `findBestMatch`'s candidate loop: keep the incumbent unless
the candidate scores strictly higher and at least `MIN_SCORE = 0.6`. -/
def findBestMatchStep {α : Type} (targetWords : List String) (targetYear : Option Int)
    (getTitleFn : α → String) (getYearFn : Option (α → Option Int))
    (acc : Option α × ℚ) (item : α) : Option α × ℚ :=
  if acc.2 < candidateScore targetWords targetYear getTitleFn getYearFn item ∧
      3/5 ≤ candidateScore targetWords targetYear getTitleFn getYearFn item then
    (some item, candidateScore targetWords targetYear getTitleFn getYearFn item)
  else acc

/-- `findBestMatch(targetTitle, targetYear, items, getTitleFn, getYearFn)`. -/
def findBestMatch {α : Type} (targetTitle : String) (targetYear : Option Int)
    (items : List α) (getTitleFn : α → String) (getYearFn : Option (α → Option Int)) :
    Option α × ℚ :=
  let targetWords := extractTitleWords targetTitle
  items.foldl (findBestMatchStep targetWords targetYear getTitleFn getYearFn) (none, 0)

/-! ### Filesystem model and Locator -/

/-- One `readdirSync` entry (`withFileTypes` dirent). -/
structure Dirent where
  name : String
  isDir : Bool
deriving DecidableEq

/-- State of a path in the modelled filesystem: absent, present but not
listable (a read raises), or present with a listing. -/
inductive DirState where
  | absent
  | unreadable
  | listing (entries : List Dirent)
deriving DecidableEq

/-- The modelled read-only filesystem: an association from absolute paths
to their state. -/
structure FS where
  dirs : List (String × DirState)

/-- State of a path (`absent` when not in the association). -/
def FS.stat (fs : FS) (p : String) : DirState :=
  (fs.dirs.lookup p).getD DirState.absent

/-- `fs.existsSync(p)`. -/
def FS.existsSync (fs : FS) (p : String) : Bool :=
  match fs.stat p with
  | DirState.absent => false
  | _ => true

/-- `fs.readdirSync(p)`, as an `Option`: `none` models the raised error
(which every caller catches). -/
def FS.readdir (fs : FS) (p : String) : Option (List Dirent) :=
  match fs.stat p with
  | DirState.listing es => some es
  | _ => none

/-- The names of the directory entries of a listing. -/
def dirNamesOf (entries : List Dirent) : List String :=
  (entries.filter (fun d => d.isDir)).map (fun d => d.name)

/-- Case-insensitive extension test against `/\.(mkv|mp4|avi|mov|flac|mp3|m4a)$/i`. -/
def isMediaFile (name : String) : Bool :=
  [".mkv", ".mp4", ".avi", ".mov", ".flac", ".mp3", ".m4a"].any
    (fun e => e.data.isSuffixOf (name.data.map Char.toLower))

/-- `hasMediaFiles(dirPath)`: some entry name has a media extension; a
failed read returns `false`. -/
def hasMediaFiles (fs : FS) (dirPath : String) : Bool :=
  match fs.readdir dirPath with
  | none => false
  | some es => es.any (fun d => isMediaFile d.name)

/-- Case-insensitive test against `/\.(flac|mp3|m4a|aac|ogg|wav)$/i`
(the music reconciler's broader audio set). -/
def isAudioFile (name : String) : Bool :=
  [".flac", ".mp3", ".m4a", ".aac", ".ogg", ".wav"].any
    (fun e => e.data.isSuffixOf (name.data.map Char.toLower))

/-- `hasAudioFiles(dirPath)` of the music reconciler. -/
def hasAudioFiles (fs : FS) (dirPath : String) : Bool :=
  match fs.readdir dirPath with
  | none => false
  | some es => es.any (fun d => isAudioFile d.name)

/-- `getAudioFiles(dirPath)` of the music reconciler; a failed read gives `[]`. -/
def getAudioFiles (fs : FS) (dirPath : String) : List String :=
  match fs.readdir dirPath with
  | none => []
  | some es => (es.filter (fun d => isAudioFile d.name)).map (fun d => d.name)

/-- `str.toLowerCase().replace(/[^a-z0-9]/g, '')`. -/
def normalizeAlnum (s : String) : String :=
  String.mk ((s.data.map Char.toLower).filter isLowerAlnum)

/-- Match of a directory name against `^<baseName> \((\d+)\)$` (the base
name is regex-escaped, hence literal), returning the parsed number. -/
def numberedSuffix (baseName dir : String) : Option Nat :=
  let preL := baseName.data ++ [' ', '(']
  if preL.isPrefixOf dir.data then
    match (dir.data.drop preL.length).reverse with
    | ')' :: midRev =>
      let mid := midRev.reverse
      if !mid.isEmpty && mid.all Char.isDigit then some (digitsToNat mid) else none
    | _ => none
  else none

/-- Insert into a list sorted by numeric suffix descending, after any
equal elements (so the overall sort below is stable, like Node's). -/
def insertByNumDesc (a : String × Nat) : List (String × Nat) → List (String × Nat)
  | [] => [a]
  | b :: t => if b.2 < a.2 then a :: b :: t else b :: insertByNumDesc a t

/-- The `.sort((a, b) => b.number - a.number)` of `findNumberedVersion`:
stable descending sort by numeric suffix. -/
def sortByNumDesc (l : List (String × Nat)) : List (String × Nat) :=
  l.foldl (fun acc x => insertByNumDesc x acc) []

/-- The final loop of `findNumberedVersion`: first numbered version (in
descending suffix order) whose directory has media files. -/
def firstWithMedia (fs : FS) (parentDir : String) : List (String × Nat) → Option String
  | [] => none
  | v :: rest =>
    if hasMediaFiles fs (pathJoin parentDir v.1) then some (pathJoin parentDir v.1)
    else firstWithMedia fs parentDir rest

/-- `findNumberedVersion(basePath, baseName)`: look for sibling directories
`"<baseName> (N)"` under `dirname(basePath)`, highest `N` first, and return
the first with media files; read failures give `null`. -/
def findNumberedVersion (fs : FS) (basePath baseName : String) : Option String :=
  let parentDir := dirname basePath
  if fs.existsSync parentDir then
    match fs.readdir parentDir with
    | none => none
    | some entries =>
      let directories := dirNamesOf entries
      let numberedVersions := sortByNumDesc (directories.filterMap (fun d =>
        match numberedSuffix baseName d with
        | some n => some (d, n)
        | none => none))
      firstWithMedia fs parentDir numberedVersions
  else none

/-- The exact-normalized-match loop of `findActualPath`, also recording
whether any exact-name directory was seen (`exactMatchFound`). -/
def exactMatchPhase (fs : FS) (mountPath relNorm : String) :
    List String → Bool → Option String × Bool
  | [], found => (none, found)
  | dir :: rest, found =>
    if normalizeAlnum dir = relNorm then
      let fullPath := pathJoin mountPath dir
      if hasMediaFiles fs fullPath then (some fullPath, true)
      else
        match findNumberedVersion fs fullPath dir with
        | some p => (some p, true)
        | none => exactMatchPhase fs mountPath relNorm rest true
    else exactMatchPhase fs mountPath relNorm rest found

/-- The word-based fallback loop of `findActualPath` (threshold `0.7`,
year bonus only, media files required before an update). -/
def fuzzyStep (fs : FS) (mountPath : String) (releaseWords : List String)
    (releaseYear : Option Int) (acc : Option String × ℚ) (dir : String) :
    Option String × ℚ :=
  let dirWords := extractTitleWords dir
  let dirYear := extractYear dir
  let base := calculateMatchScore releaseWords dirWords
  let score :=
    match releaseYear, dirYear with
    | some ry, some dy => if ry ≠ 0 ∧ dy ≠ 0 ∧ ry = dy then base + 1/5 else base
    | _, _ => base
  if acc.2 < score ∧ 7/10 ≤ score then
    if hasMediaFiles fs (pathJoin mountPath dir) then (some (pathJoin mountPath dir), score)
    else acc
  else acc

/-- `findActualPath(releaseName, mountPath)`: exact normalized match, then
numbered-version resolution, then fuzzy directory match; every failure path
degrades to `null`. -/
def findActualPath (fs : FS) (releaseName mountPath : String) : Option String :=
  if fs.existsSync mountPath then
    match fs.readdir mountPath with
    | none => none
    | some entries =>
      let directories := dirNamesOf entries
      let releaseNormalized := normalizeAlnum releaseName
      match exactMatchPhase fs mountPath releaseNormalized directories false with
      | (some p, _) => some p
      | (none, exactMatchFound) =>
        let numbered :=
          if exactMatchFound then none
          else findNumberedVersion fs (pathJoin mountPath releaseName) releaseName
        match numbered with
        | some p => some p
        | none =>
          let releaseWords := extractTitleWords releaseName
          let releaseYear := extractYear releaseName
          (directories.foldl (fuzzyStep fs mountPath releaseWords releaseYear) (none, 0)).1
  else none

/-! ### Sonarr: episode parsing and direct-database registration -/

/-- Result of `parseEpisodeInfo`: `episode = none` models the `NaN`
produced by `parseInt(match[2])` when the pattern has no second capture
group. -/
structure EpisodeParse where
  season : Nat
  episode : Option Nat
deriving DecidableEq

/-- `/[Ss](\d+)[Ee](\d+)(?:[Ee](\d+))?/` at the current position.  The
optional third group only extends the match and is never read, so it is
not computed. -/
def epPat1At (s : List Char) : Option EpisodeParse :=
  match s with
  | c :: rest =>
    if c = 'S' || c = 's' then
      let d1 := rest.takeWhile Char.isDigit
      if d1.isEmpty then none
      else
        match rest.drop d1.length with
        | e :: rest2 =>
          if e = 'E' || e = 'e' then
            let d2 := rest2.takeWhile Char.isDigit
            if d2.isEmpty then none
            else some ⟨jsOr1 (digitsToNat d1), some (digitsToNat d2)⟩
          else none
        | [] => none
    else none
  | [] => none

/-- `/(\d+)x(\d+)/` at the current position (the `x` is case-sensitive). -/
def epPat2At (s : List Char) : Option EpisodeParse :=
  let d1 := s.takeWhile Char.isDigit
  if d1.isEmpty then none
  else
    match s.drop d1.length with
    | 'x' :: rest2 =>
      let d2 := rest2.takeWhile Char.isDigit
      if d2.isEmpty then none
      else some ⟨jsOr1 (digitsToNat d1), some (digitsToNat d2)⟩
    | _ => none

/-- Case-insensitive literal prefix test. -/
def matchesCI (lit : String) (s : List Char) : Bool :=
  lit.data.isPrefixOf (s.map Char.toLower)

/-- `/[Ee]pisode[.\s](\d+)/i` at the current position.  Its only capture
group is `match[1]`, so the source's `season = parseInt(match[1]) || 1`
receives the digits and `episode = parseInt(match[2])` is `NaN`. -/
def epPat3At (s : List Char) : Option EpisodeParse :=
  if matchesCI "episode" s then
    match s.drop 7 with
    | c :: rest2 =>
      if c = '.' || isSpaceChar c then
        let d := rest2.takeWhile Char.isDigit
        if d.isEmpty then none
        else some ⟨jsOr1 (digitsToNat d), none⟩
      else none
    | [] => none
  else none

/-- Leftmost match of a position matcher over a string. -/
def scanFor {β : Type} (f : List Char → Option β) : List Char → Option β
  | [] => none
  | c :: rest =>
    match f (c :: rest) with
    | some r => some r
    | none => scanFor f rest

/-- `parseEpisodeInfo(jobName)`: the three patterns tried in order, each
searched anywhere in the string. -/
def parseEpisodeInfo (jobName : String) : Option EpisodeParse :=
  match scanFor epPat1At jobName.data with
  | some r => some r
  | none =>
    match scanFor epPat2At jobName.data with
    | some r => some r
    | none => scanFor epPat3At jobName.data

/-- A row of the `EpisodeFiles` table (constant columns such as the fixed
quality/languages JSON are omitted). -/
structure EpisodeFileRow where
  id : Nat
  seriesId : Nat
  relativePath : String
  seasonNumber : Nat
  sceneName : String
  releaseGroup : String
  size : Nat
deriving DecidableEq

/-- The slice of the Sonarr SQLite database the program touches:
`Series (Id, Path)`, `EpisodeFiles`, `Episodes (Id, EpisodeFileId)`, plus
the next row id `lastInsertRowid` would yield. -/
structure SonarrDb where
  series : List (Nat × String)
  episodeFiles : List EpisodeFileRow
  episodes : List (Nat × Nat)
  nextRowId : Nat
deriving DecidableEq

/-- The argument object built by the callers of `registerEpisodeFile`. -/
structure EpisodeFileInput where
  path : String
  seriesId : Nat
  seasonNumber : Nat
  sceneName : Option String
deriving DecidableEq

/-- `ensureSeriesPath(seriesId)`: rewrite the series' `Path` column to the
mount path when it differs. -/
def ensureSeriesPath (db : SonarrDb) (mountPath : String) (seriesId : Nat) : SonarrDb :=
  match db.series.lookup seriesId with
  | some p =>
    if p ≠ mountPath then
      { db with series := db.series.map (fun r => if r.1 = seriesId then (r.1, mountPath) else r) }
    else db
  | none => db

/-- Group-1 of the scene-name release-group regex, which matches a dash
followed by a trailing alphanumeric run `([A-Za-z0-9]+)$`; `''` on no match. -/
def releaseGroupOfSceneName (sceneName : String) : String :=
  let rev := sceneName.data.reverse
  let grpRev := rev.takeWhile isAlnumChar
  match rev.drop grpRev.length with
  | '-' :: _ => if grpRev.isEmpty then "" else String.mk grpRev.reverse
  | _ => ""

/-- `UPDATE Episodes SET EpisodeFileId = ? WHERE Id = ?`. -/
def linkEpisode (eps : List (Nat × Nat)) (episodeId fileId : Nat) : List (Nat × Nat) :=
  eps.map (fun r => if r.1 = episodeId then (r.1, fileId) else r)

/-- Link every episode id of a registration to a file id. -/
def linkAllEpisodes (eps : List (Nat × Nat)) (ids : List Nat) (fileId : Nat) :
    List (Nat × Nat) :=
  ids.foldl (fun acc i => linkEpisode acc i fileId) eps

/-- The relative path computation of `registerEpisodeFile`:
`episodeFile.path.replace(mountPath + '/', '')`. -/
def sonarrRelativePath (mountPath : String) (episodeFile : EpisodeFileInput) : String :=
  String.mk (removeFirstOccur episodeFile.path.data (mountPath ++ "/").data)

/-- The `WHERE SeriesId = ? AND RelativePath = ?` lookup predicate of
`registerEpisodeFile`. -/
def episodeFilePred (mountPath : String) (episodeFile : EpisodeFileInput)
    (r : EpisodeFileRow) : Bool :=
  r.seriesId == episodeFile.seriesId &&
    r.relativePath == sonarrRelativePath mountPath episodeFile

/-- The `EpisodeFiles` row that `registerEpisodeFile` inserts when no
matching row exists; `db1` is the database after `ensureSeriesPath`. -/
def newEpisodeFileRow (db1 : SonarrDb) (mountPath : String) (statSize : String → Nat)
    (episodeFile : EpisodeFileInput) : EpisodeFileRow :=
  { id := db1.nextRowId, seriesId := episodeFile.seriesId,
    relativePath := sonarrRelativePath mountPath episodeFile,
    seasonNumber := jsOr1 episodeFile.seasonNumber,
    sceneName := episodeFile.sceneName.getD "",
    releaseGroup :=
      match episodeFile.sceneName with
      | some sn => releaseGroupOfSceneName sn
      | none => "",
    size := statSize episodeFile.path }

/-- `registerEpisodeFile(episodeFile, episodeIds)` on the direct-database
path: after `ensureSeriesPath`, reuse the `EpisodeFiles` row with this
`(SeriesId, RelativePath)` if one exists, otherwise insert one, and link
the episodes to it.  `statSize` models `fs.statSync(...).size` (with its
error fallback of `0`). -/
def registerEpisodeFile (db : SonarrDb) (mountPath : String) (statSize : String → Nat)
    (episodeFile : EpisodeFileInput) (episodeIds : List Nat) : Option Nat × SonarrDb :=
  match (ensureSeriesPath db mountPath episodeFile.seriesId).episodeFiles.find?
      (episodeFilePred mountPath episodeFile) with
  | some existingFile =>
    (some existingFile.id,
     { ensureSeriesPath db mountPath episodeFile.seriesId with
        episodes := linkAllEpisodes
          (ensureSeriesPath db mountPath episodeFile.seriesId).episodes episodeIds
          existingFile.id })
  | none =>
    (some (newEpisodeFileRow (ensureSeriesPath db mountPath episodeFile.seriesId)
        mountPath statSize episodeFile).id,
     { ensureSeriesPath db mountPath episodeFile.seriesId with
        episodeFiles := (ensureSeriesPath db mountPath episodeFile.seriesId).episodeFiles ++
          [newEpisodeFileRow (ensureSeriesPath db mountPath episodeFile.seriesId)
            mountPath statSize episodeFile],
        nextRowId := (ensureSeriesPath db mountPath episodeFile.seriesId).nextRowId + 1,
        episodes := linkAllEpisodes
          (ensureSeriesPath db mountPath episodeFile.seriesId).episodes episodeIds
          (newEpisodeFileRow (ensureSeriesPath db mountPath episodeFile.seriesId)
            mountPath statSize episodeFile).id })

/-! ### Effects and the search cooldown -/

/-- A mutating HTTP call to a collaborator (reads are not recorded;
direct database writes are visible as state changes). -/
inductive Effect where
  | putItem (endpoint : String) (id : Nat)
  | postCommand (name : String)
  | deleteQueueEntry (id : Nat)
deriving DecidableEq

/-- The cooldown gate `if (lastSearch && (Date.now() - lastSearch) < this.searchCooldownMs)`
of the `triggerSearch...` methods: `true` means the search is skipped.
A stored timestamp of `0` is falsy in JavaScript, hence never skips. -/
def cooldownSkip (lastSearch : Option Int) (now cooldownMs : Int) : Bool :=
  match lastSearch with
  | some t => decide (t ≠ 0) && decide (now - t < cooldownMs)
  | none => false

/-- `Map.set`: overwrite in place, or append. -/
def setEntry (m : List (Nat × Int)) (k : Nat) (v : Int) : List (Nat × Int) :=
  if m.any (fun e => e.1 == k) then m.map (fun e => if e.1 = k then (k, v) else e)
  else m ++ [(k, v)]

/-- `RadarrMonitor.triggerSearchForIncompleteDownload`: skip inside the
cooldown; otherwise, unless in dry-run, post `MoviesSearch` and record the
trigger time only when the command succeeded. -/
def triggerSearchForIncompleteDownload (recentlySearched : List (Nat × Int)) (movieId : Nat)
    (now cooldownMs : Int) (dryRun cmdSuccess : Bool) : List Effect × List (Nat × Int) :=
  if cooldownSkip (recentlySearched.lookup movieId) now cooldownMs then
    ([], recentlySearched)
  else if !dryRun then
    if cmdSuccess then
      ([Effect.postCommand "MoviesSearch"], setEntry recentlySearched movieId now)
    else ([Effect.postCommand "MoviesSearch"], recentlySearched)
  else ([], recentlySearched)

/-! ### Lidarr: track parsing, album matching, registration, reconciler -/

/-- The separator class `[-_.\s]` of the track-number patterns. -/
def isTrackSep (c : Char) : Bool :=
  (c = '-' || c = '_' || c = '.' || isSpaceChar c)

/-- `^(\d)(\d{2})[-_.\s]`: 3-digit disc+track prefix; the track part is
returned. -/
def trackPat1 (s : List Char) : Option Nat :=
  match s with
  | a :: b :: c :: sep :: _ =>
    if a.isDigit && b.isDigit && c.isDigit && isTrackSep sep then
      some (digitsToNat [b, c])
    else none
  | _ => none

/-- `^(\d{1,2})[-_.\s]`: 1-2 digit prefix before a separator, greedy. -/
def trackPat2 (s : List Char) : Option Nat :=
  match s with
  | a :: b :: c :: _ =>
    if a.isDigit && b.isDigit && isTrackSep c then some (digitsToNat [a, b])
    else if a.isDigit && isTrackSep b then some (digitsToNat [a])
    else none
  | a :: b :: [] =>
    if a.isDigit && isTrackSep b then some (digitsToNat [a]) else none
  | _ => none

/-- `_-_(\d{1,2})_-_` at the current position. -/
def trackPat3At (s : List Char) : Option Nat :=
  if ['_', '-', '_'].isPrefixOf s then
    match s.drop 3 with
    | a :: b :: rest =>
      if a.isDigit && b.isDigit && ['_', '-', '_'].isPrefixOf rest then
        some (digitsToNat [a, b])
      else if a.isDigit && ['_', '-', '_'].isPrefixOf (b :: rest) then
        some (digitsToNat [a])
      else none
    | _ :: [] => none
    | [] => none
  else none

/-- `track\s*(\d{1,2})` (case-insensitive) at the current position. -/
def trackPat4At (s : List Char) : Option Nat :=
  if matchesCI "track" s then
    let rest := (s.drop 5).dropWhile isSpaceChar
    match rest with
    | a :: b :: _ =>
      if a.isDigit && b.isDigit then some (digitsToNat [a, b])
      else if a.isDigit then some (digitsToNat [a])
      else none
    | a :: [] => if a.isDigit then some (digitsToNat [a]) else none
    | [] => none
  else none

/-- `^(\d{1,2})\.`: digits at the start followed by a dot, greedy. -/
def trackPat5 (s : List Char) : Option Nat :=
  match s with
  | a :: b :: c :: _ =>
    if a.isDigit && b.isDigit && c = '.' then some (digitsToNat [a, b])
    else if a.isDigit && b = '.' then some (digitsToNat [a])
    else none
  | a :: b :: [] =>
    if a.isDigit && b = '.' then some (digitsToNat [a]) else none
  | _ => none

/-- `parseTrackNumber(filename)`: the five patterns in priority order;
`some 0` can be produced (e.g. a `00` prefix) and is falsy downstream. -/
def parseTrackNumber (filename : String) : Option Nat :=
  match trackPat1 filename.data with
  | some n => some n
  | none =>
    match trackPat2 filename.data with
    | some n => some n
    | none =>
      match scanFor trackPat3At filename.data with
      | some n => some n
      | none =>
        match scanFor trackPat4At filename.data with
        | some n => some n
        | none => trackPat5 filename.data

/-- A Lidarr artist as the matcher sees it. -/
structure Artist where
  artistName : String
deriving DecidableEq

/-- A Lidarr album: `artistName`/`artistMetadataId` model the optional
`album.artist` object's fields. -/
structure Album where
  id : Nat
  title : String
  artistName : Option String
  artistMetadataId : Option Nat
  artistId : Nat
deriving DecidableEq

/-- A Lidarr track. -/
structure Track where
  id : Nat
  hasFile : Bool
  trackNumber : String
  absoluteTrackNumber : Nat
deriving DecidableEq

/-- A row of the `TrackFiles` table (`qualityId` stands for the quality
JSON written by the source; constant columns are omitted). -/
structure TrackFileRow where
  id : Nat
  albumId : Nat
  path : String
  qualityId : Nat
  qualityName : String
  size : Nat
  sceneName : String
  releaseGroup : String
  dateAdded : String
  modified : String
deriving DecidableEq

/-- The slice of the Lidarr SQLite database the program touches. -/
structure LidarrDb where
  trackFiles : List TrackFileRow
  tracks : List (Nat × Nat)
  nextRowId : Nat
deriving DecidableEq

/-- Group-1 of the track-path release-group regex (a dash, an alphanumeric
run, a dot, then a dot-free extension at the end); `''` on no match. -/
def releaseGroupOfTrackPath (p : String) : String :=
  let rev := p.data.reverse
  let extRev := rev.takeWhile (fun c => !(c = '.'))
  match rev.drop extRev.length with
  | '.' :: stemRev =>
    if extRev.isEmpty then ""
    else
      let grpRev := stemRev.takeWhile isAlnumChar
      match stemRev.drop grpRev.length with
      | '-' :: _ => if grpRev.isEmpty then "" else String.mk grpRev.reverse
      | _ => ""
  | _ => ""

/-- The extension-based quality detection of `registerTrackFile`. -/
def detectQuality (trackFilePath : String) : Nat × String :=
  let ext := lowerStr (extname trackFilePath)
  let lowerPath := (lowerStr trackFilePath).data
  if ext = ".flac" then
    if containsSub lowerPath "24bit".data || containsSub lowerPath "24-bit".data then
      (21, "FLAC 24bit")
    else (6, "FLAC")
  else if ext = ".mp3" then (4, "MP3-320")
  else if ext = ".m4a" || ext = ".aac" then (5, "AAC-320")
  else (1, "Unknown")

/-- `UPDATE Tracks SET TrackFileId = ? WHERE Id = ?`. -/
def linkTrack (tracks : List (Nat × Nat)) (trackId fileId : Nat) : List (Nat × Nat) :=
  tracks.map (fun r => if r.1 = trackId then (r.1, fileId) else r)

/-- The `TrackFiles` row that `registerTrackFile` inserts when no row with
this path exists. -/
def newTrackFileRow (db : LidarrDb) (nowIso : String) (statSize : String → Nat)
    (trackFilePath : String) (albumId : Nat) : TrackFileRow :=
  { id := db.nextRowId, albumId := albumId, path := trackFilePath,
    qualityId := (detectQuality trackFilePath).1,
    qualityName := (detectQuality trackFilePath).2,
    size := statSize trackFilePath,
    sceneName := basename trackFilePath,
    releaseGroup := releaseGroupOfTrackPath trackFilePath,
    dateAdded := nowIso, modified := nowIso }

/-- The `WHERE Path = ?` lookup predicate of `registerTrackFile`. -/
def trackFilePred (trackFilePath : String) (r : TrackFileRow) : Bool :=
  r.path == trackFilePath

/-- `registerTrackFile(trackFilePath, albumId, track)`: reuse the
`TrackFiles` row with this `Path` if one exists, otherwise insert one, and
link the track to it. -/
def registerTrackFile (db : LidarrDb) (nowIso : String) (statSize : String → Nat)
    (trackFilePath : String) (albumId : Nat) (track : Track) : Option Nat × LidarrDb :=
  match db.trackFiles.find? (trackFilePred trackFilePath) with
  | some existingFile =>
    (some existingFile.id, { db with tracks := linkTrack db.tracks track.id existingFile.id })
  | none =>
    (some (newTrackFileRow db nowIso statSize trackFilePath albumId).id,
     { db with
        trackFiles := db.trackFiles ++ [newTrackFileRow db nowIso statSize trackFilePath albumId],
        nextRowId := db.nextRowId + 1,
        tracks := linkTrack db.tracks track.id
          (newTrackFileRow db nowIso statSize trackFilePath albumId).id })

/-- The per-album score of `findBestAlbumMatch`'s loop: normalized
substring match (scored 1) for short titles, word-overlap fraction of the
album's words otherwise. -/
def albumMatchScore (jobWords : List String) (jobNameNormalized : String) (album : Album) : ℚ :=
  let albumWords := extractTitleWords album.title
  let albumTitleNormalized := normalizeAlnum album.title
  if albumWords.length ≤ 1 ∨ album.title.length ≤ 4 then
    if 2 ≤ albumTitleNormalized.length ∧
        containsSub jobNameNormalized.data albumTitleNormalized.data then 1
    else 0
  else
    let matchingWords := (albumWords.filter (fun w => jobWords.contains w)).length
    if albumWords.length > 0 then (matchingWords : ℚ) / (albumWords.length : ℚ) else 0

/-- The body of `findBestAlbumMatch`'s album loop: keep the incumbent
unless the candidate scores strictly higher (no threshold here). -/
def albumMatchStep (jobWords : List String) (jobNameNormalized : String)
    (acc : Option Album × ℚ) (album : Album) : Option Album × ℚ :=
  if acc.2 < albumMatchScore jobWords jobNameNormalized album then
    (some album, albumMatchScore jobWords jobNameNormalized album)
  else acc

/-- The `artistAlbums` filter of `findBestAlbumMatch`: the albums whose
(optional) artist name equals the matched artist's. -/
def artistAlbumsOf (allAlbums : List Album) (artist : Artist) : List Album :=
  allAlbums.filter (fun a => a.artistName == some artist.artistName)

/-- The album loop of `findBestAlbumMatch` over a list of albums. -/
def bestAlbumOf (jobName : String) (albums : List Album) : Option Album × ℚ :=
  albums.foldl (albumMatchStep (extractTitleWords jobName) (normalizeAlnum jobName))
    ((none : Option Album), (0 : ℚ))

/-- The final acceptance check of `findBestAlbumMatch`: keep the best
album only when its score reached `0.5`. -/
def albumStage (best : Option Album × ℚ) : Option Album × ℚ :=
  if 1/2 ≤ best.2 then best else (none, 0)

/-- `findBestAlbumMatch(jobName, allAlbums, allArtists)`: artist stage via
`findBestMatch` plus a `< 0.5` rejection, then best album of that artist,
accepted at `≥ 0.5`. -/
def findBestAlbumMatch (jobName : String) (allAlbums : List Album) (allArtists : List Artist) :
    Option Album × ℚ :=
  match findBestMatch jobName none allArtists (fun a => a.artistName) none with
  | (none, _) => (none, 0)
  | (some artist, artistScore) =>
    if artistScore < 1/2 then (none, 0)
    else if (artistAlbumsOf allAlbums artist).isEmpty then (none, 0)
    else albumStage (bestAlbumOf jobName (artistAlbumsOf allAlbums artist))

/-- An entry of the queue returned by `getQueue()`. -/
structure QueueItem where
  id : Nat
  status : String
  movieId : Option Nat
  seriesId : Option Nat
  episodeId : Option Nat
  albumId : Option Nat
deriving DecidableEq

/-- `clearFailedQueueEntries(filterFn)`: one `DELETE` per failed matching
entry (and the count of removed entries). -/
def clearFailedQueueEntries (queue : List QueueItem) (filterFn : QueueItem → Bool) :
    List Effect × Nat :=
  let failedEntries := queue.filter (fun item => item.status == "failed" && filterFn item)
  (failedEntries.map (fun e => Effect.deleteQueueEntry e.id), failedEntries.length)

/-- `refreshArtist(artistId)`: posts `RefreshArtist` unless the id is
falsy.  It has no dry-run guard. -/
def refreshArtist (artistId : Nat) : List Effect :=
  if artistId = 0 then [] else [Effect.postCommand "RefreshArtist"]

/-- `LidarrMonitor.triggerSearchForIncompleteDownload` (keyed by album id,
posting `AlbumSearch`). -/
def lidarrTriggerSearch (recentlySearched : List (Nat × Int)) (albumId : Nat)
    (now cooldownMs : Int) (dryRun cmdSuccess : Bool) : List Effect × List (Nat × Int) :=
  if cooldownSkip (recentlySearched.lookup albumId) now cooldownMs then
    ([], recentlySearched)
  else if !dryRun then
    if cmdSuccess then
      ([Effect.postCommand "AlbumSearch"], setEntry recentlySearched albumId now)
    else ([Effect.postCommand "AlbumSearch"], recentlySearched)
  else ([], recentlySearched)

/-- The environment of one `LidarrMonitor.processHistory` run: catalog
reads, filesystem, queue, configuration and clock. -/
structure LidarrEnv where
  mountPath : String
  categories : List String
  artists : List Artist
  albums : List Album
  tracksOf : Nat → List Track
  fs : FS
  queue : List QueueItem
  statSize : String → Nat
  nowMs : Int
  nowIso : String
  cooldownMs : Int
  dryRun : Bool
  cmdSuccess : Bool

/-- One NzbDAV history slot (both casings of the category field). -/
structure HistoryItem where
  job_name : Option String
  name : Option String
  category : Option String
  categoryCap : Option String
deriving DecidableEq

/-- The mutable state threaded through a `processHistory` run. -/
structure LidarrState where
  effects : List Effect
  db : LidarrDb
  recentlySearched : List (Nat × Int)
deriving DecidableEq

/-- The body of the audio-file loop of `LidarrMonitor.processHistory`:
skip files whose parsed track number is falsy (`null` or `0`) or matches
no fileless track; otherwise register (or, in dry-run, only count). -/
def processAudioFile (env : LidarrEnv) (album : Album) (tracksWithoutFiles : List Track)
    (actualDownloadPath : String) (acc : LidarrState × Nat) (audioFile : String) :
    LidarrState × Nat :=
  let trackNumber := parseTrackNumber audioFile
  if trackNumber = none ∨ trackNumber = some 0 then acc
  else
    let tn := trackNumber.getD 0
    match tracksWithoutFiles.find? (fun t =>
        t.absoluteTrackNumber == tn ||
        jsOrNat (parseIntJs t.trackNumber) t.absoluteTrackNumber == tn) with
    | none => acc
    | some track =>
      let fullPath := pathJoin actualDownloadPath audioFile
      if !env.dryRun then
        let r := registerTrackFile acc.1.db env.nowIso env.statSize fullPath album.id track
        ({ acc.1 with db := r.2 }, acc.2 + 1)
      else (acc.1, acc.2 + 1)

/-- The registration-and-followup part of one history item, after the
actual download path is known.  The queue clearing and the artist refresh
run whenever `registeredCount > 0` — also in dry-run mode. -/
def lidarrAfterPath (env : LidarrEnv) (st : LidarrState) (album : Album)
    (tracksWithoutFiles : List Track) (actualDownloadPath : String) : LidarrState :=
  let audioFiles := getAudioFiles env.fs actualDownloadPath
  if audioFiles.isEmpty then
    let r := lidarrTriggerSearch st.recentlySearched album.id env.nowMs env.cooldownMs
      env.dryRun env.cmdSuccess
    { st with effects := st.effects ++ r.1, recentlySearched := r.2 }
  else
    let res := audioFiles.foldl
      (processAudioFile env album tracksWithoutFiles actualDownloadPath) (st, 0)
    if res.2 > 0 then
      let clear := clearFailedQueueEntries env.queue (fun item => item.albumId == some album.id)
      let refresh := refreshArtist (jsOrNat album.artistMetadataId album.artistId)
      { res.1 with effects := res.1.effects ++ clear.1 ++ refresh }
    else res.1

/-- One history item of `LidarrMonitor.processHistory`. -/
def lidarrProcessItem (env : LidarrEnv) (st : LidarrState) (h : HistoryItem) : LidarrState :=
  let jobName := jsSelectStr [h.job_name, h.name]
  let category := lowerStr (jsSelectStr [h.category, h.categoryCap])
  if !(env.categories.any (fun cat => containsSub category.data cat.data)) then st
  else
    match findBestAlbumMatch jobName env.albums env.artists with
    | (none, _) => st
    | (some album, _) =>
      let tracks := env.tracksOf album.id
      let tracksWithoutFiles := tracks.filter (fun t => !t.hasFile)
      if tracksWithoutFiles.isEmpty then st
      else
        let downloadPath := pathJoin env.mountPath jobName
        if !(env.fs.existsSync downloadPath) || !(hasAudioFiles env.fs downloadPath) then
          match findNumberedVersion env.fs downloadPath jobName with
          | some numberedPath => lidarrAfterPath env st album tracksWithoutFiles numberedPath
          | none =>
            let r := lidarrTriggerSearch st.recentlySearched album.id env.nowMs env.cooldownMs
              env.dryRun env.cmdSuccess
            { st with effects := st.effects ++ r.1, recentlySearched := r.2 }
        else lidarrAfterPath env st album tracksWithoutFiles downloadPath

/-- `LidarrMonitor.processHistory(nzbdavHistory)`. -/
def lidarrProcessHistory (env : LidarrEnv) (db0 : LidarrDb) (recentlySearched0 : List (Nat × Int))
    (history : List HistoryItem) : LidarrState :=
  history.foldl (lidarrProcessItem env) ⟨[], db0, recentlySearched0⟩

/-! ### Concrete instances used by the evaluations below -/

/-- The duplicate-resolution demo tree: `Release` empty, `Release (2)`
empty, `Release (3)` holding `movie.mkv`. -/
def demoFS : FS := ⟨[
  ("/movies", DirState.listing [⟨"Release", true⟩, ⟨"Release (2)", true⟩, ⟨"Release (3)", true⟩]),
  ("/movies/Release", DirState.listing []),
  ("/movies/Release (2)", DirState.listing []),
  ("/movies/Release (3)", DirState.listing [⟨"movie.mkv", false⟩])]⟩

/-- A tree with no exact-name directory for release `Rel`, only numbered
siblings. -/
def c6WitnessFS : FS := ⟨[
  ("/movies", DirState.listing [⟨"Other", true⟩, ⟨"Rel (2)", true⟩, ⟨"Rel (3)", true⟩]),
  ("/movies/Rel (2)", DirState.listing []),
  ("/movies/Rel (3)", DirState.listing [⟨"movie.mkv", false⟩])]⟩

/-- An empty filesystem. -/
def emptyFS : FS := ⟨[]⟩

/-- A filesystem whose only path exists but cannot be read. -/
def unreadableFS : FS := ⟨[("/m", DirState.unreadable)]⟩

/-- Demo artist. -/
def artistG : Artist := ⟨"Great Artist"⟩

/-- Demo album of `artistG`. -/
def albCool : Album := ⟨7, "Cool Album", some "Great Artist", some 9, 3⟩

/-- Music tree holding the demo album's download with one track file. -/
def c1FS : FS := ⟨[
  ("/music", DirState.listing [⟨"Great Artist - Cool Album", true⟩]),
  ("/music/Great Artist - Cool Album", DirState.listing [⟨"01 - Song.mp3", false⟩])]⟩

/-- Lidarr database before the run: one fileless track row. -/
def c1Db0 : LidarrDb := ⟨[], [(21, 0)], 1⟩

/-- A dry-run Lidarr environment in which the demo album's download is
complete on disk and a failed queue entry exists for the album. -/
def c1Env : LidarrEnv :=
  { mountPath := "/music", categories := ["music"], artists := [artistG],
    albums := [albCool], tracksOf := fun _ => [⟨21, false, "1", 1⟩],
    fs := c1FS, queue := [⟨5, "failed", none, none, none, some 7⟩],
    statSize := fun _ => 0, nowMs := 1000, nowIso := "2026-01-01",
    cooldownMs := 86400000, dryRun := true, cmdSuccess := true }

/-- The history snapshot with the demo album's completed download. -/
def c1History : List HistoryItem := [⟨some "Great Artist - Cool Album", none, some "music", none⟩]

/-- Sonarr database with one series and one fileless episode. -/
def sonarrDemoDb : SonarrDb := ⟨[(1, "/tv")], [], [(10, 0)], 1⟩

/-- Episode-file argument for the registration demo. -/
def demoEpisodeInput : EpisodeFileInput := ⟨"/tv/Show/ep.mkv", 1, 1, some "ep.mkv"⟩

/-- Demo track for the registration demo. -/
def demoTrack : Track := ⟨21, false, "1", 1⟩

/-! ### Helper lemmas -/

theorem calculateMatchScore_nonneg (A B : List String) : 0 ≤ calculateMatchScore A B := by
  unfold calculateMatchScore
  split
  · exact le_refl 0
  · exact div_nonneg (by positivity) (by positivity)

theorem calculateMatchScore_le_one (A B : List String) : calculateMatchScore A B ≤ 1 := by
  unfold calculateMatchScore
  split
  · exact zero_le_one
  · rename_i h
    push_neg at h
    have hA : A.toFinset.card ≠ 0 := by
      simp only [ne_eq, Finset.card_eq_zero, List.toFinset_eq_empty_iff]
      intro hAe
      exact h.1 (by simp [hAe])
    have hB : B.toFinset.card ≠ 0 := by
      simp only [ne_eq, Finset.card_eq_zero, List.toFinset_eq_empty_iff]
      intro hBe
      exact h.2 (by simp [hBe])
    have hmin : 0 < min A.toFinset.card B.toFinset.card :=
      lt_min (Nat.pos_of_ne_zero hA) (Nat.pos_of_ne_zero hB)
    have hc : (A.toFinset.filter (fun w => w ∈ B.toFinset)).card ≤
        min A.toFinset.card B.toFinset.card := by
      refine le_min (Finset.card_filter_le _ _) ?_
      rw [Finset.filter_mem_eq_inter]
      exact Finset.card_le_card Finset.inter_subset_right
    rw [div_le_one (by exact_mod_cast hmin)]
    exact_mod_cast hc

theorem yearAdjust_le (ty iy : Option Int) (b : ℚ) : yearAdjust ty iy b ≤ b + 1/5 := by
  unfold yearAdjust
  split
  · split
    · split
      · exact le_refl _
      · split <;> linarith
    · linarith
  · linarith

/-! ### C7 -/

/-- C7: `calculateMatchScore` is the set-semantics overlap fraction
`|intersection| / min(|set1|, |set2|)`, returning `0` when either list is
empty; it is symmetric, `1` on any nonempty list against itself,
insensitive to duplicated words, and `0` against the empty list. -/
theorem calculateMatchScore_props :
    (∀ A B : List String, A.length ≠ 0 → B.length ≠ 0 →
      calculateMatchScore A B =
        ((A.toFinset ∩ B.toFinset).card : ℚ) / ((min A.toFinset.card B.toFinset.card : Nat) : ℚ)) ∧
    (∀ A B : List String, A = [] ∨ B = [] → calculateMatchScore A B = 0) ∧
    (∀ A B : List String, calculateMatchScore A B = calculateMatchScore B A) ∧
    (∀ A : List String, A ≠ [] → calculateMatchScore A A = 1) ∧
    (∀ A B : List String, calculateMatchScore (A ++ A) B = calculateMatchScore A B) ∧
    (∀ A : List String, calculateMatchScore A [] = 0) := by
  have hformula : ∀ A B : List String, A.length ≠ 0 → B.length ≠ 0 →
      calculateMatchScore A B =
        ((A.toFinset ∩ B.toFinset).card : ℚ) / ((min A.toFinset.card B.toFinset.card : Nat) : ℚ) := by
    intro A B hA hB
    unfold calculateMatchScore
    rw [if_neg (by simp [hA, hB])]
    simp only [Finset.filter_mem_eq_inter]
  have hzero : ∀ A B : List String, A = [] ∨ B = [] → calculateMatchScore A B = 0 := by
    intro A B h
    unfold calculateMatchScore
    rcases h with rfl | rfl <;> simp
  refine ⟨hformula, hzero, ?_, ?_, ?_, ?_⟩
  · intro A B
    by_cases hA : A.length = 0
    · rw [hzero A B (Or.inl (List.length_eq_zero.mp hA)),
        hzero B A (Or.inr (List.length_eq_zero.mp hA))]
    · by_cases hB : B.length = 0
      · rw [hzero A B (Or.inr (List.length_eq_zero.mp hB)),
          hzero B A (Or.inl (List.length_eq_zero.mp hB))]
      · rw [hformula A B hA hB, hformula B A hB hA, Finset.inter_comm, Nat.min_comm]
  · intro A hA
    have hlen : A.length ≠ 0 := by simpa [List.length_eq_zero] using hA
    rw [hformula A A hlen hlen, Finset.inter_self, Nat.min_self]
    have hcard : A.toFinset.card ≠ 0 := by
      simp only [ne_eq, Finset.card_eq_zero, List.toFinset_eq_empty_iff]
      exact hA
    exact div_self (by exact_mod_cast hcard)
  · intro A B
    by_cases hA : A.length = 0
    · have hAe : A = [] := List.length_eq_zero.mp hA
      subst hAe
      simp
    · by_cases hB : B.length = 0
      · rw [hzero (A ++ A) B (Or.inr (List.length_eq_zero.mp hB)),
          hzero A B (Or.inr (List.length_eq_zero.mp hB))]
      · have hAA : (A ++ A).length ≠ 0 := by simp [hA]
        rw [hformula (A ++ A) B hAA hB, hformula A B hA hB]
        simp [List.toFinset_append]
  · intro A
    exact hzero A [] (Or.inr rfl)

/-- Witness for C7 at a concrete nonempty list. -/
theorem calculateMatchScore_props_witness :
    calculateMatchScore ["ab", "cd"] ["ab", "cd"] = 1 :=
  calculateMatchScore_props.2.2.2.1 ["ab", "cd"] (by decide)

/-! ### C4 -/

/-- C4: the `S..E..` (optionally chained), `..x..` patterns parse as the
spec says, but the `Episode <n>` pattern returns the digits as the
*season* (its only capture group feeds `parseInt(match[1]) || 1`) and a
`NaN` episode from the absent `match[2]`, instead of season 1 /
episode `n`. -/
theorem parseEpisodeInfo_patterns :
    parseEpisodeInfo "Show.S01E02.mkv" = some ⟨1, some 2⟩ ∧
    parseEpisodeInfo "Show.S01E02E03.mkv" = some ⟨1, some 2⟩ ∧
    parseEpisodeInfo "Show 1x02" = some ⟨1, some 2⟩ ∧
    parseEpisodeInfo "Show S00E05" = some ⟨1, some 5⟩ ∧
    parseEpisodeInfo "Episode 7" = some ⟨7, none⟩ := by
  refine ⟨by decide, by decide, by decide, by decide, by decide⟩

/-! ### C3 -/

/-- C3 counterexample: with an entry stored at time 10 and cooldown 100,
a query at time 110 (elapsed time exactly the cooldown, hence *not*
exceeding it) does trigger the search, contradicting the claimed
"allowed iff elapsed exceeds the cooldown". -/
theorem cooldownBoundaryCounterexample :
    (triggerSearchForIncompleteDownload [(1, 10)] 1 110 100 false true).1 =
      [Effect.postCommand "MoviesSearch"] ∧
    ¬((110 : Int) - 10 > 100) := by
  refine ⟨by decide, by decide⟩

/-- C3 (amended): for a nonzero stored timestamp the trigger is allowed
iff no entry exists or the elapsed time is at least (`≥`, not `>`) the
cooldown; the skip branch performs nothing; a non-skipped non-dry-run call
posts the search and records "now" exactly when the command succeeds; the
stored map changes only on success; and the `cooldown − 1` / `cooldown + 1`
probes behave as claimed. -/
theorem cooldown_spec :
    (∀ now cd : Int, cooldownSkip none now cd = false) ∧
    (∀ t now cd : Int, t ≠ 0 → (cooldownSkip (some t) now cd = false ↔ cd ≤ now - t)) ∧
    (∀ (m : List (Nat × Int)) (k : Nat) (now cd : Int) (dry ok : Bool),
        cooldownSkip (m.lookup k) now cd = true →
        triggerSearchForIncompleteDownload m k now cd dry ok = ([], m)) ∧
    (∀ (m : List (Nat × Int)) (k : Nat) (now cd : Int) (ok : Bool),
        cooldownSkip (m.lookup k) now cd = false →
        triggerSearchForIncompleteDownload m k now cd false ok =
          ([Effect.postCommand "MoviesSearch"], if ok then setEntry m k now else m)) ∧
    (∀ (m : List (Nat × Int)) (k : Nat) (now cd : Int) (dry ok : Bool),
        (triggerSearchForIncompleteDownload m k now cd dry ok).2 ≠ m →
        ok = true ∧ dry = false ∧
        (triggerSearchForIncompleteDownload m k now cd dry ok).2 = setEntry m k now) ∧
    (∀ t cd : Int, t ≠ 0 →
        cooldownSkip (some t) (t + cd - 1) cd = true ∧
        cooldownSkip (some t) (t + cd + 1) cd = false) := by
  refine ⟨?_, ?_, ?_, ?_, ?_, ?_⟩
  · intro now cd; rfl
  · intro t now cd ht
    have hd : decide (t ≠ 0) = true := by simp [ht]
    show (decide (t ≠ 0) && decide (now - t < cd)) = false ↔ cd ≤ now - t
    rw [hd, Bool.true_and, decide_eq_false_iff_not, not_lt]
  · intro m k now cd dry ok h
    unfold triggerSearchForIncompleteDownload
    rw [if_pos h]
  · intro m k now cd ok h
    unfold triggerSearchForIncompleteDownload
    rw [if_neg (by simp [h])]
    cases ok <;> simp
  · intro m k now cd dry ok h
    unfold triggerSearchForIncompleteDownload at h ⊢
    by_cases hskip : cooldownSkip (m.lookup k) now cd = true
    · rw [if_pos hskip] at h; simp at h
    · rw [if_neg hskip] at h ⊢
      cases dry
      · simp only [Bool.not_false, if_true] at h ⊢
        cases ok
        · simp at h
        · simp
      · simp at h
  · intro t cd ht
    have hd : decide (t ≠ 0) = true := by simp [ht]
    constructor
    · show (decide (t ≠ 0) && decide (t + cd - 1 - t < cd)) = true
      rw [hd, Bool.true_and, decide_eq_true_eq]
      omega
    · show (decide (t ≠ 0) && decide (t + cd + 1 - t < cd)) = false
      rw [hd, Bool.true_and, decide_eq_false_iff_not, not_lt]
      omega

/-- Witness for C3's amended theorem at concrete values. -/
theorem cooldown_spec_witness :
    cooldownSkip (some 10) (10 + 100 - 1) 100 = true ∧
    cooldownSkip (some 10) (10 + 100 + 1) 100 = false :=
  cooldown_spec.2.2.2.2.2 10 100 (by decide)

/-! ### C8 -/

/-- C8: the locator's error paths degrade to "no match" instead of
raising: a missing or unreadable mount yields `none` from
`findActualPath`; `hasMediaFiles` yields `false` when its directory
cannot be read; and `findNumberedVersion` yields `none` when the numbered
siblings' parent is missing or unreadable. -/
theorem locator_error_degradation :
    (∀ (fs : FS) (rel mount : String), fs.stat mount = DirState.absent →
        findActualPath fs rel mount = none) ∧
    (∀ (fs : FS) (rel mount : String), fs.stat mount = DirState.unreadable →
        findActualPath fs rel mount = none) ∧
    (∀ (fs : FS) (p : String), fs.readdir p = none → hasMediaFiles fs p = false) ∧
    (∀ (fs : FS) (basePath baseName : String),
        fs.stat (dirname basePath) = DirState.absent →
        findNumberedVersion fs basePath baseName = none) ∧
    (∀ (fs : FS) (basePath baseName : String),
        fs.stat (dirname basePath) = DirState.unreadable →
        findNumberedVersion fs basePath baseName = none) := by
  refine ⟨?_, ?_, ?_, ?_, ?_⟩
  · intro fs rel mount h
    unfold findActualPath
    rw [if_neg (by simp [FS.existsSync, h])]
  · intro fs rel mount h
    unfold findActualPath
    rw [if_pos (by simp [FS.existsSync, h])]
    simp [FS.readdir, h]
  · intro fs p h
    unfold hasMediaFiles
    rw [h]
  · intro fs basePath baseName h
    unfold findNumberedVersion
    rw [if_neg (by simp [FS.existsSync, h])]
  · intro fs basePath baseName h
    unfold findNumberedVersion
    rw [if_pos (by simp [FS.existsSync, h])]
    simp [FS.readdir, h]

/-- Witness for C8 at concrete filesystems. -/
theorem locator_error_degradation_witness :
    findActualPath emptyFS "x" "/m" = none ∧
    findActualPath unreadableFS "x" "/m" = none ∧
    hasMediaFiles unreadableFS "/m" = false :=
  ⟨locator_error_degradation.1 emptyFS "x" "/m" (by decide),
   locator_error_degradation.2.1 unreadableFS "x" "/m" (by decide),
   locator_error_degradation.2.2.1 unreadableFS "/m" (by decide)⟩

/-! ### C10 -/

/-- C10: a parsed track number of `0` (e.g. a `00 `, `00-` or `00.`
prefix) is falsy at the `if (!trackNumber)` check, so the file is skipped
exactly like an unparseable one: the loop body leaves the state (and so
the database and the effect list) unchanged and attempts no registration. -/
theorem trackNumberZero_skipped :
    parseTrackNumber "00 - Intro.mp3" = some 0 ∧
    parseTrackNumber "00-Intro.mp3" = some 0 ∧
    parseTrackNumber "00.Intro.mp3" = some 0 ∧
    (∀ (env : LidarrEnv) (album : Album) (tw : List Track) (adp : String)
        (acc : LidarrState × Nat) (f : String),
        parseTrackNumber f = none ∨ parseTrackNumber f = some 0 →
        processAudioFile env album tw adp acc f = acc) := by
  refine ⟨by decide, by decide, by decide, ?_⟩
  intro env album tw adp acc f h
  unfold processAudioFile
  rw [if_pos h]

/-- Witness for C10: the loop body on `00 - Intro.mp3` is the identity. -/
theorem trackNumberZero_skipped_witness :
    processAudioFile c1Env albCool [] "/music/d" (⟨[], c1Db0, []⟩, 0) "00 - Intro.mp3" =
      (⟨[], c1Db0, []⟩, 0) :=
  trackNumberZero_skipped.2.2.2 c1Env albCool [] "/music/d" (⟨[], c1Db0, []⟩, 0)
    "00 - Intro.mp3" (Or.inr (by decide))

/-! ### C1 -/

section RatEvalC1

attribute [local semireducible] Rat.mul Rat.inv Rat.add Rat.sub Rat.div Rat.blt Rat.neg

/-- C1: evaluation at the failing input.  In dry-run mode, with a complete
music download on disk, `LidarrMonitor.processHistory` skips the track
registration (the database is unchanged) but still deletes the album's
failed queue entry and posts a `RefreshArtist` command, because the
post-registration block is guarded by `registeredCount > 0`, which dry-run
also increments, and not by the dry-run flag. -/
theorem dryRunLidarrStillMutates :
    c1Env.dryRun = true ∧
    (lidarrProcessHistory c1Env c1Db0 [] c1History).effects =
      [Effect.deleteQueueEntry 5, Effect.postCommand "RefreshArtist"] ∧
    (lidarrProcessHistory c1Env c1Db0 [] c1History).db = c1Db0 := by
  refine ⟨rfl, by decide, by decide⟩

end RatEvalC1

/-! ### C9 -/

/-- A candidate's adjusted score never exceeds `1.2`. -/
theorem candidateScore_le {α : Type} (tw : List String) (ty : Option Int)
    (gt : α → String) (gy : Option (α → Option Int)) (b : α) :
    candidateScore tw ty gt gy b ≤ 6/5 := by
  unfold candidateScore
  refine le_trans (yearAdjust_le _ _ _) ?_
  linarith [calculateMatchScore_le_one tw (extractTitleWords (gt b))]

/-- Invariant preservation along `findBestMatch`'s fold: the accumulator
is `(none, 0)` or a member scored within `[3/5, 6/5]`. -/
theorem findBestMatch_foldl_inv {α : Type} (tw : List String) (ty : Option Int)
    (gt : α → String) (gy : Option (α → Option Int)) (S : List α) :
    ∀ (l : List α) (acc : Option α × ℚ),
      (∀ x ∈ l, x ∈ S) →
      (acc.1 = none → acc.2 = 0) →
      (∀ x, acc.1 = some x → x ∈ S ∧ 3/5 ≤ acc.2 ∧ acc.2 ≤ 6/5) →
      ((l.foldl (findBestMatchStep tw ty gt gy) acc).1 = none →
        (l.foldl (findBestMatchStep tw ty gt gy) acc).2 = 0) ∧
      (∀ x, (l.foldl (findBestMatchStep tw ty gt gy) acc).1 = some x →
        x ∈ S ∧ 3/5 ≤ (l.foldl (findBestMatchStep tw ty gt gy) acc).2 ∧
          (l.foldl (findBestMatchStep tw ty gt gy) acc).2 ≤ 6/5) := by
  intro l
  induction l with
  | nil =>
    intro acc _ hnone hsome
    exact ⟨hnone, hsome⟩
  | cons b t ih =>
    intro acc hl hnone hsome
    rw [List.foldl_cons]
    refine ih (findBestMatchStep tw ty gt gy acc b)
      (fun x hx => hl x (List.mem_cons_of_mem b hx)) ?_ ?_
    · unfold findBestMatchStep
      split
      · intro h; cases h
      · exact hnone
    · unfold findBestMatchStep
      split
      · rename_i hcond
        intro x hx
        have hb : some b = some x := hx
        injection hb with hbx
        subst hbx
        exact ⟨hl b (List.mem_cons_self b t), hcond.2, candidateScore_le tw ty gt gy b⟩
      · exact hsome

/-- C9: `findBestMatch` returns either no match with score `0`, or a
member of the candidate list with a final score in `[0.6, 1.2]`; a
non-null match is never below the `0.6` threshold and a null match never
carries a nonzero score. -/
theorem findBestMatch_invariant {α : Type} (t : String) (y : Option Int) (items : List α)
    (gt : α → String) (gy : Option (α → Option Int)) :
    ((findBestMatch t y items gt gy).1 = none → (findBestMatch t y items gt gy).2 = 0) ∧
    (∀ x, (findBestMatch t y items gt gy).1 = some x →
      x ∈ items ∧ 3/5 ≤ (findBestMatch t y items gt gy).2 ∧
        (findBestMatch t y items gt gy).2 ≤ 6/5) := by
  unfold findBestMatch
  exact findBestMatch_foldl_inv (extractTitleWords t) y gt gy items items (none, 0)
    (fun x h => h) (fun _ => rfl) (fun x h => by cases h)

section RatEvalC9

attribute [local semireducible] Rat.mul Rat.inv Rat.add Rat.sub Rat.div Rat.blt Rat.neg

/-- Witness for C9 at a concrete match. -/
theorem findBestMatch_invariant_witness :
    (findBestMatch "The Matrix" none ["The Matrix", "Other"] id none).1 = some "The Matrix" ∧
    3/5 ≤ (findBestMatch "The Matrix" none ["The Matrix", "Other"] id none).2 := by
  have hm : (findBestMatch "The Matrix" none ["The Matrix", "Other"] id none).1 =
      some "The Matrix" := by decide
  exact ⟨hm, ((findBestMatch_invariant "The Matrix" none ["The Matrix", "Other"] id none).2
    "The Matrix" hm).2.1⟩

end RatEvalC9

/-! ### C5 -/

section RatEvalC5a

attribute [local semireducible] Rat.mul Rat.inv Rat.add Rat.sub Rat.div Rat.blt Rat.neg

/-- C5 counterexample: against artist `Alpha Beta Gamma Delta`, the
release `Alpha.Beta.Omega.Sigma` has word-overlap score exactly `0.5`,
and the artist's album `Omega Sigma` scores a perfect `1`; yet
`findBestAlbumMatch` returns no match, because the artist stage runs
through `findBestMatch`, whose internal threshold is `0.6`.  An artist
whose best word-overlap score reaches `0.5` is therefore *not* eligible,
contrary to the claim. -/
theorem musicArtistThresholdCounterexample :
    calculateMatchScore (extractTitleWords "Alpha.Beta.Omega.Sigma")
      (extractTitleWords "Alpha Beta Gamma Delta") = 1/2 ∧
    albumMatchScore (extractTitleWords "Alpha.Beta.Omega.Sigma")
      (normalizeAlnum "Alpha.Beta.Omega.Sigma")
      ⟨1, "Omega Sigma", some "Alpha Beta Gamma Delta", some 1, 1⟩ = 1 ∧
    findBestAlbumMatch "Alpha.Beta.Omega.Sigma"
      [⟨1, "Omega Sigma", some "Alpha Beta Gamma Delta", some 1, 1⟩]
      [⟨"Alpha Beta Gamma Delta"⟩] = (none, 0) := by
  refine ⟨by decide, by decide, by decide⟩

end RatEvalC5a

section SymbolicC5

attribute [local irreducible] extractTitleWords extractYear normalizeAlnum
  calculateMatchScore albumMatchScore

/-- Case split for one step of the album loop, with the candidate's score
abstracted. -/
theorem albumMatchStep_or (jw : List String) (jn : String) (acc : Option Album × ℚ)
    (b : Album) :
    (albumMatchStep jw jn acc b = (some b, albumMatchScore jw jn b) ∧
      acc.2 < albumMatchScore jw jn b) ∨
    (albumMatchStep jw jn acc b = acc ∧ albumMatchScore jw jn b ≤ acc.2) := by
  unfold albumMatchStep
  generalize albumMatchScore jw jn b = q
  by_cases h : acc.2 < q
  · exact Or.inl ⟨if_pos h, h⟩
  · exact Or.inr ⟨if_neg h, le_of_not_lt h⟩

/-- What `findBestAlbumMatch`'s album fold computes: the final score
bounds all candidates' scores and the seed's, and a returned album is a
candidate (or came from the seed) carrying exactly its own score. -/
theorem albumFold_spec (jw : List String) (jn : String) :
    ∀ (l : List Album) (acc : Option Album × ℚ),
      (∀ a, acc.1 = some a → acc.2 = albumMatchScore jw jn a) →
      (∀ x ∈ l, albumMatchScore jw jn x ≤ (l.foldl (albumMatchStep jw jn) acc).2) ∧
      acc.2 ≤ (l.foldl (albumMatchStep jw jn) acc).2 ∧
      (∀ a, (l.foldl (albumMatchStep jw jn) acc).1 = some a →
        (a ∈ l ∨ acc.1 = some a) ∧
        (l.foldl (albumMatchStep jw jn) acc).2 = albumMatchScore jw jn a) := by
  intro l
  induction l with
  | nil =>
    intro acc hacc
    exact ⟨fun x hx => absurd hx (List.not_mem_nil x), le_refl _,
      fun a ha => ⟨Or.inr ha, hacc a ha⟩⟩
  | cons b t ih =>
    intro acc hacc
    rw [List.foldl_cons]
    have hstep := albumMatchStep_or jw jn acc b
    have hacc' : ∀ a, (albumMatchStep jw jn acc b).1 = some a →
        (albumMatchStep jw jn acc b).2 = albumMatchScore jw jn a := by
      rcases hstep with ⟨heq, _⟩ | ⟨heq, _⟩
      · rw [heq]
        intro a ha
        have hba : some b = some a := ha
        injection hba with hba2
        rw [← hba2]
      · rw [heq]
        exact hacc
    have hup : acc.2 ≤ (albumMatchStep jw jn acc b).2 := by
      rcases hstep with ⟨heq, hlt⟩ | ⟨heq, _⟩
      · rw [heq]; exact le_of_lt hlt
      · rw [heq]
    have hbb : albumMatchScore jw jn b ≤ (albumMatchStep jw jn acc b).2 := by
      rcases hstep with ⟨heq, _⟩ | ⟨heq, hle⟩
      · rw [heq]
      · rw [heq]; exact hle
    obtain ⟨iha, ihb, ihc⟩ := ih (albumMatchStep jw jn acc b) hacc'
    refine ⟨?_, le_trans hup ihb, ?_⟩
    · intro x hx
      rcases List.mem_cons.mp hx with rfl | hxt
      · exact le_trans hbb ihb
      · exact iha x hxt
    · intro a ha
      obtain ⟨hmem, hsc⟩ := ihc a ha
      rcases hmem with hat | hstep1
      · exact ⟨Or.inl (List.mem_cons_of_mem b hat), hsc⟩
      · rcases hstep with ⟨heq, _⟩ | ⟨heq, _⟩
        · rw [heq] at hstep1
          have hba : some b = some a := hstep1
          injection hba with hba2
          exact ⟨Or.inl (by rw [← hba2]; exact List.mem_cons_self b t), hsc⟩
        · rw [heq] at hstep1
          exact ⟨Or.inr hstep1, hsc⟩

/-- `findBestMatch` unfolded to its candidate fold. -/
theorem findBestMatch_eq {α : Type} (t : String) (y : Option Int) (items : List α)
    (gt : α → String) (gy : Option (α → Option Int)) :
    findBestMatch t y items gt gy =
      items.foldl (findBestMatchStep (extractTitleWords t) y gt gy) (none, 0) := rfl

/-- `bestAlbumOf` unfolded to its album fold. -/
theorem bestAlbumOf_eq (jobName : String) (albums : List Album) :
    bestAlbumOf jobName albums =
      albums.foldl (albumMatchStep (extractTitleWords jobName) (normalizeAlnum jobName))
        ((none : Option Album), (0 : ℚ)) := rfl

/-- C5 (amended): when `findBestAlbumMatch` returns an album, the artist
stage accepted an artist through `findBestMatch` — hence with score at
least `0.6`, not merely `0.5` as claimed — and the album is one of that
artist's albums, scored by the short-title/word-overlap rule
`albumMatchScore`, is the best-scoring such album, and reached the `0.5`
album threshold. -/
theorem findBestAlbumMatch_spec (jobName : String) (allAlbums : List Album)
    (allArtists : List Artist) :
    ∀ alb s, findBestAlbumMatch jobName allAlbums allArtists = (some alb, s) →
      ∃ artist artistScore,
        findBestMatch jobName none allArtists (fun a => a.artistName) none =
          (some artist, artistScore) ∧
        artist ∈ allArtists ∧ 3/5 ≤ artistScore ∧
        alb ∈ allAlbums ∧ alb.artistName = some artist.artistName ∧
        s = albumMatchScore (extractTitleWords jobName) (normalizeAlnum jobName) alb ∧
        1/2 ≤ s ∧
        (∀ alb2 ∈ allAlbums, alb2.artistName = some artist.artistName →
          albumMatchScore (extractTitleWords jobName) (normalizeAlnum jobName) alb2 ≤ s) := by
  intro alb s h
  unfold findBestAlbumMatch at h
  split at h
  · exact Option.noConfusion (congrArg Prod.fst h)
  · rename_i artist artistScore hfbeq
    split at h
    · exact Option.noConfusion (congrArg Prod.fst h)
    · rename_i has
      split at h
      · exact Option.noConfusion (congrArg Prod.fst h)
      · unfold albumStage at h
        split at h
        · rename_i hth
          -- h : bestAlbumOf jobName (artistAlbumsOf allAlbums artist) = (some alb, s)
          rw [bestAlbumOf_eq] at h hth
          have hart1 : ((allArtists.foldl (findBestMatchStep (extractTitleWords jobName)
              none (fun a => a.artistName) none) (none, 0)).1 : Option Artist) =
              some artist := by
            rw [← findBestMatch_eq, hfbeq]
          have hart2 := (findBestMatch_foldl_inv (extractTitleWords jobName) none
            (fun a => a.artistName) none allArtists allArtists (none, 0)
            (fun x hx => hx) (fun _ => rfl) (fun x hx => by cases hx)).2 artist hart1
          have hscore : (findBestMatch jobName none allArtists
              (fun a => a.artistName) none).2 = artistScore := by
            rw [hfbeq]
          have hsc2 : 3/5 ≤ artistScore := by
            rw [← hscore, findBestMatch_eq]
            exact hart2.2.1
          obtain ⟨hfold1, hfold2, hfold3⟩ := albumFold_spec (extractTitleWords jobName)
            (normalizeAlnum jobName) (artistAlbumsOf allAlbums artist) (none, 0)
            (fun a ha => by cases ha)
          have h1 : ((artistAlbumsOf allAlbums artist).foldl
              (albumMatchStep (extractTitleWords jobName) (normalizeAlnum jobName))
              (none, 0)).1 = some alb := by
            rw [h]
          have h2 : ((artistAlbumsOf allAlbums artist).foldl
              (albumMatchStep (extractTitleWords jobName) (normalizeAlnum jobName))
              (none, 0)).2 = s := by
            rw [h]
          obtain ⟨hmem, hsc⟩ := hfold3 alb h1
          have halbmem : alb ∈ artistAlbumsOf allAlbums artist := by
            rcases hmem with hm | hm
            · exact hm
            · cases hm
          have halb := List.mem_filter.mp halbmem
          refine ⟨artist, artistScore, hfbeq, hart2.1, hsc2, halb.1, ?_, ?_, ?_, ?_⟩
          · exact eq_of_beq halb.2
          · rw [← h2, hsc]
          · rw [← h2]; exact hth
          · intro alb2 hmem2 hname2
            have halb2 : alb2 ∈ artistAlbumsOf allAlbums artist :=
              List.mem_filter.mpr ⟨hmem2, by rw [hname2]; exact beq_self_eq_true _⟩
            rw [← h2]
            exact hfold1 alb2 halb2
        · exact Option.noConfusion (congrArg Prod.fst h)

end SymbolicC5

section RatEvalC5b

attribute [local semireducible] Rat.mul Rat.inv Rat.add Rat.sub Rat.div Rat.blt Rat.neg

/-- Witness for C5's amended theorem at a concrete accepted album. -/
theorem findBestAlbumMatch_spec_witness :
    ∃ artist artistScore,
      findBestMatch "Great Artist - Cool Album" none [artistG] (fun a => a.artistName) none =
        (some artist, artistScore) ∧
      artist ∈ [artistG] ∧ 3/5 ≤ artistScore ∧
      albCool ∈ [albCool] ∧ albCool.artistName = some artist.artistName ∧
      (1 : ℚ) = albumMatchScore (extractTitleWords "Great Artist - Cool Album")
        (normalizeAlnum "Great Artist - Cool Album") albCool ∧
      (1 : ℚ)/2 ≤ 1 ∧
      (∀ alb2 ∈ [albCool], alb2.artistName = some artist.artistName →
        albumMatchScore (extractTitleWords "Great Artist - Cool Album")
          (normalizeAlnum "Great Artist - Cool Album") alb2 ≤ 1) :=
  findBestAlbumMatch_spec "Great Artist - Cool Album" [albCool] [artistG] albCool 1 (by decide)

end RatEvalC5b

/-! ### C2 -/

/-- `ensureSeriesPath` touches only the `Series` table. -/
theorem ensureSeriesPath_fields (db : SonarrDb) (m : String) (s : Nat) :
    (ensureSeriesPath db m s).episodeFiles = db.episodeFiles ∧
    (ensureSeriesPath db m s).episodes = db.episodes ∧
    (ensureSeriesPath db m s).nextRowId = db.nextRowId := by
  unfold ensureSeriesPath
  cases db.series.lookup s with
  | none => exact ⟨rfl, rfl, rfl⟩
  | some p =>
    by_cases hp : p ≠ m
    · simp [if_pos hp]
    · simp [if_neg hp]

/-- `find?` over an appended list when the first part has no hit. -/
theorem find?_append_none {α : Type} (p : α → Bool) (l1 l2 : List α)
    (h : l1.find? p = none) : (l1 ++ l2).find? p = l2.find? p := by
  induction l1 with
  | nil => rfl
  | cons a t ih =>
    by_cases hpa : p a = true
    · rw [List.find?_cons_of_pos _ hpa] at h
      cases h
    · rw [List.find?_cons_of_neg _ hpa] at h
      rw [List.cons_append, List.find?_cons_of_neg _ hpa]
      exact ih h

/-- Membership transfer through one `UPDATE Episodes` for a different key. -/
theorem linkEpisode_mem_ne (eps : List (Nat × Nat)) (i fid e f : Nat) (hne : e ≠ i) :
    ((e, f) ∈ linkEpisode eps i fid ↔ (e, f) ∈ eps) := by
  unfold linkEpisode
  rw [List.mem_map]
  constructor
  · rintro ⟨r, hr, hmap⟩
    by_cases hri : r.1 = i
    · rw [if_pos hri] at hmap
      have : r.1 = e := congrArg Prod.fst hmap
      exact absurd (this ▸ hri) hne
    · rw [if_neg hri] at hmap
      rw [← hmap]
      exact hr
  · intro he
    refine ⟨(e, f), he, ?_⟩
    rw [if_neg ?_]
    intro hc
    exact hne hc

/-- A row updated by `UPDATE Episodes ... WHERE Id = ?` carries the new
file id. -/
theorem linkEpisode_mem_eq (eps : List (Nat × Nat)) (e fid f : Nat)
    (h : (e, f) ∈ linkEpisode eps e fid) : f = fid := by
  unfold linkEpisode at h
  rw [List.mem_map] at h
  obtain ⟨r, _, hmap⟩ := h
  by_cases hri : r.1 = e
  · rw [if_pos hri] at hmap
    exact (congrArg Prod.snd hmap).symm
  · rw [if_neg hri] at hmap
    exact absurd (congrArg Prod.fst hmap) hri

/-- `linkAllEpisodes` leaves rows of unlisted episode ids alone. -/
theorem linkAll_not_mem (ids : List Nat) :
    ∀ (eps : List (Nat × Nat)) (fid e f : Nat), e ∉ ids →
      ((e, f) ∈ linkAllEpisodes eps ids fid ↔ (e, f) ∈ eps) := by
  induction ids with
  | nil => intro eps fid e f _; exact Iff.rfl
  | cons i rest ih =>
    intro eps fid e f he
    have hne : e ≠ i := fun h => he (h ▸ List.mem_cons_self i rest)
    have hstep : linkAllEpisodes eps (i :: rest) fid =
        linkAllEpisodes (linkEpisode eps i fid) rest fid := rfl
    rw [hstep, ih (linkEpisode eps i fid) fid e f (fun h => he (List.mem_cons_of_mem i h))]
    exact linkEpisode_mem_ne eps i fid e f hne

/-- After `linkAllEpisodes`, every row of a listed episode id carries the
new file id. -/
theorem linkAll_mem_of_mem (ids : List Nat) :
    ∀ (eps : List (Nat × Nat)) (fid e f : Nat), e ∈ ids →
      (e, f) ∈ linkAllEpisodes eps ids fid → f = fid := by
  induction ids with
  | nil => intro eps fid e f he; cases he
  | cons i rest ih =>
    intro eps fid e f he hmem
    have hstep : linkAllEpisodes eps (i :: rest) fid =
        linkAllEpisodes (linkEpisode eps i fid) rest fid := rfl
    rw [hstep] at hmem
    by_cases her : e ∈ rest
    · exact ih (linkEpisode eps i fid) fid e f her hmem
    · have hei : e = i := by
        rcases List.mem_cons.mp he with h | h
        · exact h
        · exact absurd h her
      subst hei
      rw [linkAll_not_mem rest (linkEpisode eps e fid) fid e f her] at hmem
      exact linkEpisode_mem_eq eps e fid f hmem

/-- A row updated by `UPDATE Tracks ... WHERE Id = ?` carries the new
file id. -/
theorem linkTrack_mem_eq (tracks : List (Nat × Nat)) (tid fid f : Nat)
    (h : (tid, f) ∈ linkTrack tracks tid fid) : f = fid := by
  unfold linkTrack at h
  rw [List.mem_map] at h
  obtain ⟨r, _, hmap⟩ := h
  by_cases hri : r.1 = tid
  · rw [if_pos hri] at hmap
    exact (congrArg Prod.snd hmap).symm
  · rw [if_neg hri] at hmap
    exact absurd (congrArg Prod.fst hmap) hri

/-- `registerEpisodeFile` when the lookup finds an existing row. -/
theorem registerEpisodeFile_found (db : SonarrDb) (mountPath : String)
    (statSize : String → Nat) (ef : EpisodeFileInput) (eids : List Nat)
    (row : EpisodeFileRow)
    (hfind : (ensureSeriesPath db mountPath ef.seriesId).episodeFiles.find?
      (episodeFilePred mountPath ef) = some row) :
    registerEpisodeFile db mountPath statSize ef eids =
      (some row.id,
       { ensureSeriesPath db mountPath ef.seriesId with
          episodes := linkAllEpisodes (ensureSeriesPath db mountPath ef.seriesId).episodes
            eids row.id }) := by
  unfold registerEpisodeFile
  rw [hfind]

/-- `registerEpisodeFile` when the lookup finds nothing. -/
theorem registerEpisodeFile_notfound (db : SonarrDb) (mountPath : String)
    (statSize : String → Nat) (ef : EpisodeFileInput) (eids : List Nat)
    (hfind : (ensureSeriesPath db mountPath ef.seriesId).episodeFiles.find?
      (episodeFilePred mountPath ef) = none) :
    registerEpisodeFile db mountPath statSize ef eids =
      (some (newEpisodeFileRow (ensureSeriesPath db mountPath ef.seriesId)
          mountPath statSize ef).id,
       { ensureSeriesPath db mountPath ef.seriesId with
          episodeFiles := (ensureSeriesPath db mountPath ef.seriesId).episodeFiles ++
            [newEpisodeFileRow (ensureSeriesPath db mountPath ef.seriesId)
              mountPath statSize ef],
          nextRowId := (ensureSeriesPath db mountPath ef.seriesId).nextRowId + 1,
          episodes := linkAllEpisodes (ensureSeriesPath db mountPath ef.seriesId).episodes
            eids (newEpisodeFileRow (ensureSeriesPath db mountPath ef.seriesId)
              mountPath statSize ef).id }) := by
  unfold registerEpisodeFile
  rw [hfind]

/-- `registerTrackFile` when the lookup finds an existing row. -/
theorem registerTrackFile_found (db : LidarrDb) (nowIso : String)
    (statSize : String → Nat) (p : String) (albumId : Nat) (track : Track)
    (row : TrackFileRow)
    (hfind : db.trackFiles.find? (trackFilePred p) = some row) :
    registerTrackFile db nowIso statSize p albumId track =
      (some row.id, { db with tracks := linkTrack db.tracks track.id row.id }) := by
  unfold registerTrackFile
  rw [hfind]

/-- `registerTrackFile` when the lookup finds nothing. -/
theorem registerTrackFile_notfound (db : LidarrDb) (nowIso : String)
    (statSize : String → Nat) (p : String) (albumId : Nat) (track : Track)
    (hfind : db.trackFiles.find? (trackFilePred p) = none) :
    registerTrackFile db nowIso statSize p albumId track =
      (some (newTrackFileRow db nowIso statSize p albumId).id,
       { db with
          trackFiles := db.trackFiles ++ [newTrackFileRow db nowIso statSize p albumId],
          nextRowId := db.nextRowId + 1,
          tracks := linkTrack db.tracks track.id
            (newTrackFileRow db nowIso statSize p albumId).id }) := by
  unfold registerTrackFile
  rw [hfind]

/-- C2: registration is idempotent, for Sonarr's `registerEpisodeFile`
(keyed on `(SeriesId, RelativePath)`) and Lidarr's `registerTrackFile`
(keyed on `Path`): a second identical call returns the first call's row
id, inserts no second row, and re-links the target episodes/track to that
row. -/
theorem registration_idempotent :
    (∀ (db : SonarrDb) (mount : String) (statSize : String → Nat)
        (ef : EpisodeFileInput) (eids : List Nat),
      ∃ fid,
        (registerEpisodeFile db mount statSize ef eids).1 = some fid ∧
        (registerEpisodeFile (registerEpisodeFile db mount statSize ef eids).2
            mount statSize ef eids).1 = some fid ∧
        (registerEpisodeFile (registerEpisodeFile db mount statSize ef eids).2
            mount statSize ef eids).2.episodeFiles =
          (registerEpisodeFile db mount statSize ef eids).2.episodeFiles ∧
        (∀ e f, e ∈ eids →
          (e, f) ∈ (registerEpisodeFile (registerEpisodeFile db mount statSize ef eids).2
              mount statSize ef eids).2.episodes → f = fid)) ∧
    (∀ (db : LidarrDb) (nowIso : String) (statSize : String → Nat)
        (p : String) (albumId : Nat) (track : Track),
      ∃ fid,
        (registerTrackFile db nowIso statSize p albumId track).1 = some fid ∧
        (registerTrackFile (registerTrackFile db nowIso statSize p albumId track).2
            nowIso statSize p albumId track).1 = some fid ∧
        (registerTrackFile (registerTrackFile db nowIso statSize p albumId track).2
            nowIso statSize p albumId track).2.trackFiles =
          (registerTrackFile db nowIso statSize p albumId track).2.trackFiles ∧
        (∀ f, (track.id, f) ∈ (registerTrackFile (registerTrackFile db nowIso statSize
            p albumId track).2 nowIso statSize p albumId track).2.tracks → f = fid)) := by
  constructor
  · intro db mount statSize ef eids
    rcases hfind : (ensureSeriesPath db mount ef.seriesId).episodeFiles.find?
        (episodeFilePred mount ef) with _ | row
    · -- no row yet: the first call inserts, the second finds the insert
      have e1 := registerEpisodeFile_notfound db mount statSize ef eids hfind
      have h1fst : (registerEpisodeFile db mount statSize ef eids).1 =
          some (newEpisodeFileRow (ensureSeriesPath db mount ef.seriesId)
            mount statSize ef).id := by
        rw [e1]
      have h1snd : (registerEpisodeFile db mount statSize ef eids).2 =
          { ensureSeriesPath db mount ef.seriesId with
             episodeFiles := (ensureSeriesPath db mount ef.seriesId).episodeFiles ++
               [newEpisodeFileRow (ensureSeriesPath db mount ef.seriesId)
                 mount statSize ef],
             nextRowId := (ensureSeriesPath db mount ef.seriesId).nextRowId + 1,
             episodes := linkAllEpisodes (ensureSeriesPath db mount ef.seriesId).episodes
               eids (newEpisodeFileRow (ensureSeriesPath db mount ef.seriesId)
                 mount statSize ef).id } := by
        rw [e1]
      have hpred : episodeFilePred mount ef (newEpisodeFileRow
          (ensureSeriesPath db mount ef.seriesId) mount statSize ef) = true := by
        unfold episodeFilePred newEpisodeFileRow
        simp
      have hfiles2 : (ensureSeriesPath (registerEpisodeFile db mount statSize ef eids).2
          mount ef.seriesId).episodeFiles =
          (ensureSeriesPath db mount ef.seriesId).episodeFiles ++
            [newEpisodeFileRow (ensureSeriesPath db mount ef.seriesId)
              mount statSize ef] := by
        rw [(ensureSeriesPath_fields _ mount ef.seriesId).1, h1snd]
      have hfind2 : (ensureSeriesPath (registerEpisodeFile db mount statSize ef eids).2
          mount ef.seriesId).episodeFiles.find? (episodeFilePred mount ef) =
          some (newEpisodeFileRow (ensureSeriesPath db mount ef.seriesId)
            mount statSize ef) := by
        rw [hfiles2, find?_append_none _ _ _ hfind, List.find?_cons_of_pos _ hpred]
      have e2 := registerEpisodeFile_found (registerEpisodeFile db mount statSize ef eids).2
        mount statSize ef eids _ hfind2
      refine ⟨(newEpisodeFileRow (ensureSeriesPath db mount ef.seriesId)
        mount statSize ef).id, h1fst, ?_, ?_, ?_⟩
      · rw [e2]
      · rw [e2]
        exact (ensureSeriesPath_fields _ mount ef.seriesId).1
      · intro e f he hmem
        rw [e2] at hmem
        exact linkAll_mem_of_mem eids _ _ e f he hmem
    · -- a row exists: both calls find it
      have e1 := registerEpisodeFile_found db mount statSize ef eids row hfind
      have h1fst : (registerEpisodeFile db mount statSize ef eids).1 = some row.id := by
        rw [e1]
      have h1snd : (registerEpisodeFile db mount statSize ef eids).2 =
          { ensureSeriesPath db mount ef.seriesId with
             episodes := linkAllEpisodes (ensureSeriesPath db mount ef.seriesId).episodes
               eids row.id } := by
        rw [e1]
      have hfiles2 : (ensureSeriesPath (registerEpisodeFile db mount statSize ef eids).2
          mount ef.seriesId).episodeFiles =
          (ensureSeriesPath db mount ef.seriesId).episodeFiles := by
        rw [(ensureSeriesPath_fields _ mount ef.seriesId).1, h1snd]
      have hfind2 : (ensureSeriesPath (registerEpisodeFile db mount statSize ef eids).2
          mount ef.seriesId).episodeFiles.find? (episodeFilePred mount ef) = some row := by
        rw [hfiles2]
        exact hfind
      have e2 := registerEpisodeFile_found (registerEpisodeFile db mount statSize ef eids).2
        mount statSize ef eids row hfind2
      refine ⟨row.id, h1fst, ?_, ?_, ?_⟩
      · rw [e2]
      · rw [e2, hfiles2, h1snd]
      · intro e f he hmem
        rw [e2] at hmem
        exact linkAll_mem_of_mem eids _ _ e f he hmem
  · intro db nowIso statSize p albumId track
    rcases hfind : db.trackFiles.find? (trackFilePred p) with _ | row
    · have e1 := registerTrackFile_notfound db nowIso statSize p albumId track hfind
      have h1fst : (registerTrackFile db nowIso statSize p albumId track).1 =
          some (newTrackFileRow db nowIso statSize p albumId).id := by
        rw [e1]
      have h1snd : (registerTrackFile db nowIso statSize p albumId track).2 =
          { db with
             trackFiles := db.trackFiles ++ [newTrackFileRow db nowIso statSize p albumId],
             nextRowId := db.nextRowId + 1,
             tracks := linkTrack db.tracks track.id
               (newTrackFileRow db nowIso statSize p albumId).id } := by
        rw [e1]
      have hpred : trackFilePred p (newTrackFileRow db nowIso statSize p albumId) = true := by
        unfold trackFilePred newTrackFileRow
        simp
      have hfind2 : (registerTrackFile db nowIso statSize p albumId track).2.trackFiles.find?
          (trackFilePred p) = some (newTrackFileRow db nowIso statSize p albumId) := by
        rw [h1snd]
        show (db.trackFiles ++ [newTrackFileRow db nowIso statSize p albumId]).find?
          (trackFilePred p) = _
        rw [find?_append_none _ _ _ hfind, List.find?_cons_of_pos _ hpred]
      have e2 := registerTrackFile_found (registerTrackFile db nowIso statSize p albumId track).2
        nowIso statSize p albumId track _ hfind2
      refine ⟨(newTrackFileRow db nowIso statSize p albumId).id, h1fst, ?_, ?_, ?_⟩
      · rw [e2]
      · rw [e2]
      · intro f hmem
        rw [e2] at hmem
        exact linkTrack_mem_eq _ track.id _ f hmem
    · have e1 := registerTrackFile_found db nowIso statSize p albumId track row hfind
      have h1fst : (registerTrackFile db nowIso statSize p albumId track).1 = some row.id := by
        rw [e1]
      have h1snd : (registerTrackFile db nowIso statSize p albumId track).2 =
          { db with tracks := linkTrack db.tracks track.id row.id } := by
        rw [e1]
      have hfind2 : (registerTrackFile db nowIso statSize p albumId track).2.trackFiles.find?
          (trackFilePred p) = some row := by
        rw [h1snd]
        exact hfind
      have e2 := registerTrackFile_found (registerTrackFile db nowIso statSize p albumId track).2
        nowIso statSize p albumId track row hfind2
      refine ⟨row.id, h1fst, ?_, ?_, ?_⟩
      · rw [e2]
      · rw [e2, h1snd]
      · intro f hmem
        rw [e2] at hmem
        exact linkTrack_mem_eq _ track.id _ f hmem

/-- Witness for C2 at a concrete database and registration input. -/
theorem registration_idempotent_witness :
    ∃ fid,
      (registerEpisodeFile sonarrDemoDb "/tv" (fun _ => 0) demoEpisodeInput [10]).1 =
        some fid ∧
      (registerEpisodeFile (registerEpisodeFile sonarrDemoDb "/tv" (fun _ => 0)
          demoEpisodeInput [10]).2 "/tv" (fun _ => 0) demoEpisodeInput [10]).1 = some fid ∧
      (registerEpisodeFile (registerEpisodeFile sonarrDemoDb "/tv" (fun _ => 0)
          demoEpisodeInput [10]).2 "/tv" (fun _ => 0) demoEpisodeInput [10]).2.episodeFiles =
        (registerEpisodeFile sonarrDemoDb "/tv" (fun _ => 0)
          demoEpisodeInput [10]).2.episodeFiles ∧
      (∀ e f, e ∈ [10] →
        (e, f) ∈ (registerEpisodeFile (registerEpisodeFile sonarrDemoDb "/tv" (fun _ => 0)
            demoEpisodeInput [10]).2 "/tv" (fun _ => 0) demoEpisodeInput [10]).2.episodes →
          f = fid) :=
  registration_idempotent.1 sonarrDemoDb "/tv" (fun _ => 0) demoEpisodeInput [10]

/-- A tree where the only numbered sibling of `Rel` has suffix `0` and a
differently-named directory would win the word-based fallback. -/
def c6LowFS : FS := ⟨[
  ("/m", DirState.listing [⟨"Rel Extra", true⟩, ⟨"Rel (0)", true⟩]),
  ("/m/Rel Extra", DirState.listing [⟨"movie.mkv", false⟩]),
  ("/m/Rel (0)", DirState.listing [⟨"movie.mkv", false⟩])]⟩

/-- If every element of the first list satisfies the predicate, `dropWhile`
over the concatenation continues into the second list. -/
theorem dropWhile_all (p : Char → Bool) :
    ∀ (l₁ l₂ : List Char), (∀ a ∈ l₁, p a = true) →
      (l₁ ++ l₂).dropWhile p = l₂.dropWhile p := by
  intro l₁ l₂ h
  induction l₁ with
  | nil => rfl
  | cons a t ih =>
    have ha := h a (List.mem_cons_self a t)
    rw [List.cons_append, List.dropWhile_cons, if_pos ha]
    exact ih (fun x hx => h x (List.mem_cons_of_mem a hx))

/-- `path.dirname` undoes `path.join` when the joined component has no
separator and the base is nonempty. -/
theorem dirname_pathJoin (mount rel : String) (hm : ¬ mount = "")
    (hrel : ∀ c ∈ rel.data, ¬ c = '/') :
    dirname (pathJoin mount rel) = mount := by
  have hdata : (mount ++ "/" ++ rel).data = mount.data ++ '/' :: rel.data := by
    rw [String.data_append, String.data_append, List.append_assoc]
    rfl
  have hrev : (mount ++ "/" ++ rel).data.reverse.dropWhile (fun c => !(c = '/')) =
      '/' :: mount.data.reverse := by
    rw [hdata, List.reverse_append, List.reverse_cons, List.append_assoc]
    rw [dropWhile_all _ _ _ (fun a ha => by
      have := hrel a (List.mem_reverse.mp ha)
      simp [this])]
    rw [List.singleton_append, List.dropWhile_cons, if_neg (by simp)]
  unfold dirname pathJoin
  rw [hrev]
  cases hmr : mount.data.reverse with
  | nil =>
    exfalso
    apply hm
    have h0 : mount.data = [] := by
      have := congrArg List.reverse hmr
      simpa using this
    cases mount with
    | mk l => cases h0; rfl
  | cons c t =>
    show String.mk ((c :: t).reverse) = mount
    rw [← hmr, List.reverse_reverse]

/-- When no directory name normalizes to the target, the exact-match loop
returns nothing and leaves the flag unchanged. -/
theorem exactMatchPhase_none (fs : FS) (mount relNorm : String) :
    ∀ (dirs : List String) (found : Bool),
      (∀ d ∈ dirs, ¬ normalizeAlnum d = relNorm) →
      exactMatchPhase fs mount relNorm dirs found = (none, found) := by
  intro dirs
  induction dirs with
  | nil => intro found _; rfl
  | cons d rest ih =>
    intro found h
    simp only [exactMatchPhase]
    rw [if_neg (h d (List.mem_cons_self d rest))]
    exact ih found (fun x hx => h x (List.mem_cons_of_mem d hx))

/-- Ordered insertion permutes consing. -/
theorem insertByNumDesc_perm (a : String × Nat) :
    ∀ (l : List (String × Nat)), List.Perm (insertByNumDesc a l) (a :: l) := by
  intro l
  induction l with
  | nil => exact List.Perm.refl _
  | cons b t ih =>
    simp only [insertByNumDesc]
    split
    · exact List.Perm.refl _
    · exact (List.Perm.cons b ih).trans (List.Perm.swap a b t)

/-- Ordered insertion preserves the descending-suffix pairwise order. -/
theorem insertByNumDesc_pairwise (a : String × Nat) :
    ∀ (l : List (String × Nat)),
      l.Pairwise (fun p q => q.2 ≤ p.2) →
      (insertByNumDesc a l).Pairwise (fun p q => q.2 ≤ p.2) := by
  intro l
  induction l with
  | nil =>
    intro _
    simp only [insertByNumDesc]
    exact List.Pairwise.cons (by intro x hx; cases hx) List.Pairwise.nil
  | cons b t ih =>
    intro h
    rcases List.pairwise_cons.mp h with ⟨hbt, ht⟩
    simp only [insertByNumDesc]
    split
    next hb =>
      refine List.pairwise_cons.mpr ⟨?_, h⟩
      intro x hx
      rcases List.mem_cons.mp hx with rfl | hx'
      · exact Nat.le_of_lt hb
      · exact Nat.le_trans (hbt x hx') (Nat.le_of_lt hb)
    next hb =>
      refine List.pairwise_cons.mpr ⟨?_, ih ht⟩
      intro x hx
      rcases List.mem_cons.mp ((insertByNumDesc_perm a t).mem_iff.mp hx) with rfl | hx'
      · exact Nat.le_of_not_lt hb
      · exact hbt x hx'

/-- The fold of ordered insertions permutes appending. -/
theorem sortFold_perm :
    ∀ (l acc : List (String × Nat)),
      List.Perm (l.foldl (fun acc x => insertByNumDesc x acc) acc) (acc ++ l) := by
  intro l
  induction l with
  | nil => intro acc; simp
  | cons x t ih =>
    intro acc
    have h1 := ih (insertByNumDesc x acc)
    have h2 := (insertByNumDesc_perm x acc).append_right t
    exact ((h1.trans h2).trans (List.perm_middle.symm))

/-- The sort used by `findNumberedVersion` permutes its input. -/
theorem sortByNumDesc_perm (l : List (String × Nat)) :
    List.Perm (sortByNumDesc l) l := by
  have := sortFold_perm l []
  simpa [sortByNumDesc] using this

/-- The fold of ordered insertions preserves the descending order of the
accumulator. -/
theorem sortFold_pairwise :
    ∀ (l acc : List (String × Nat)),
      acc.Pairwise (fun p q => q.2 ≤ p.2) →
      (l.foldl (fun acc x => insertByNumDesc x acc) acc).Pairwise
        (fun p q => q.2 ≤ p.2) := by
  intro l
  induction l with
  | nil => intro acc h; exact h
  | cons x t ih =>
    intro acc h
    exact ih (insertByNumDesc x acc) (insertByNumDesc_pairwise x acc h)

/-- The sort used by `findNumberedVersion` is descending in the numeric
suffix. -/
theorem sortByNumDesc_pairwise (l : List (String × Nat)) :
    (sortByNumDesc l).Pairwise (fun p q => q.2 ≤ p.2) :=
  sortFold_pairwise l [] List.Pairwise.nil

/-- On a descending list with some member having media, the final loop of
`findNumberedVersion` returns a member with media such that no member with
a strictly larger suffix has media. -/
theorem firstWithMedia_spec (fs : FS) (parent : String) :
    ∀ (L : List (String × Nat)),
      L.Pairwise (fun p q => q.2 ≤ p.2) →
      (∃ v ∈ L, hasMediaFiles fs (pathJoin parent v.1) = true) →
      ∃ d n, (d, n) ∈ L ∧ hasMediaFiles fs (pathJoin parent d) = true ∧
        (∀ d' n', (d', n') ∈ L → n < n' →
          hasMediaFiles fs (pathJoin parent d') = false) ∧
        firstWithMedia fs parent L = some (pathJoin parent d) := by
  intro L
  induction L with
  | nil => intro _ hex; rcases hex with ⟨v, hv, _⟩; cases hv
  | cons v rest ih =>
    intro hp hex
    rcases List.pairwise_cons.mp hp with ⟨hhead, htail⟩
    by_cases hm : hasMediaFiles fs (pathJoin parent v.1) = true
    · refine ⟨v.1, v.2, by simp, hm, ?_, ?_⟩
      · intro d' n' hmem hlt
        rcases List.mem_cons.mp hmem with heq | hmem'
        · exfalso
          have : n' = v.2 := congrArg Prod.snd heq
          exact absurd hlt (by rw [this]; exact Nat.lt_irrefl _)
        · exact absurd hlt (Nat.not_lt.mpr (hhead _ hmem'))
      · simp only [firstWithMedia]
        rw [if_pos hm]
    · have hm' : hasMediaFiles fs (pathJoin parent v.1) = false :=
        Bool.eq_false_iff.mpr hm
      rcases hex with ⟨w, hw, hwm⟩
      have hwrest : w ∈ rest := by
        rcases List.mem_cons.mp hw with rfl | h
        · exact absurd hwm hm
        · exact h
      obtain ⟨d, n, hdn, hdm, hhigh, heq⟩ := ih htail ⟨w, hwrest, hwm⟩
      refine ⟨d, n, List.mem_cons_of_mem v hdn, hdm, ?_, ?_⟩
      · intro d' n' hmem hlt
        rcases List.mem_cons.mp hmem with heq' | hmem'
        · have hd' : d' = v.1 := congrArg Prod.fst heq'
          rw [hd']
          exact hm'
        · exact hhigh d' n' hmem' hlt
      · simp only [firstWithMedia]
        rw [if_neg hm]
        exact heq

/-- Membership in the numbered-candidate list of `findNumberedVersion`. -/
theorem mem_numbered_filterMap (rel : String) (dirs : List String)
    (d : String) (n : Nat) :
    (d, n) ∈ dirs.filterMap (fun x =>
        match numberedSuffix rel x with
        | some m => some (x, m)
        | none => none) ↔
      d ∈ dirs ∧ numberedSuffix rel d = some n := by
  rw [List.mem_filterMap]
  constructor
  · rintro ⟨a, ha, hfa⟩
    cases hs : numberedSuffix rel a with
    | none => rw [hs] at hfa; simp at hfa
    | some m =>
      rw [hs] at hfa
      simp only [Option.some.injEq, Prod.mk.injEq] at hfa
      rcases hfa with ⟨rfl, rfl⟩
      exact ⟨ha, hs⟩
  · rintro ⟨hd, hs⟩
    exact ⟨d, hd, by rw [hs]⟩

/-- C6 counterexample to the claimed `N ≥ 2` restriction: the numbered
pattern of `findNumberedVersion` matches any digit suffix, so the sibling
`Rel (0)` is selected by the numbered-version phase, where the claimed
restriction would instead fall through to the word-based phase and return
`Rel Extra` (which also holds media and matches every release word). -/
theorem numberedVersionLowSuffixCounterexample :
    numberedSuffix "Rel" "Rel (0)" = some 0 ∧
    hasMediaFiles c6LowFS "/m/Rel Extra" = true ∧
    findActualPath c6LowFS "Rel" "/m" = some "/m/Rel (0)" := by
  refine ⟨by decide, by decide, ?_⟩
  rfl

/-- C6 (amended: the numbered suffix is any `N : Nat`, not only `N ≥ 2`):
when no exact-normalized directory exists under the mount, and some
numbered sibling of the release name holds media, `findActualPath`
returns a numbered sibling with media such that every sibling with a
strictly larger suffix lacks media; and on the demo tree — `Release`
empty, `Release (2)` empty, `Release (3)` holding `movie.mkv` — locating
`Release` yields the path of `Release (3)`. -/
theorem duplicateVersionResolution :
    (∀ (fs : FS) (mount rel : String) (entries : List Dirent),
      ¬ mount = "" →
      (∀ c ∈ rel.data, ¬ c = '/') →
      fs.stat mount = DirState.listing entries →
      (∀ d ∈ dirNamesOf entries, ¬ normalizeAlnum d = normalizeAlnum rel) →
      (∃ v ∈ (dirNamesOf entries).filterMap (fun x =>
          match numberedSuffix rel x with
          | some m => some (x, m)
          | none => none), hasMediaFiles fs (pathJoin mount v.1) = true) →
      ∃ d n, d ∈ dirNamesOf entries ∧ numberedSuffix rel d = some n ∧
        hasMediaFiles fs (pathJoin mount d) = true ∧
        (∀ d' n', d' ∈ dirNamesOf entries → numberedSuffix rel d' = some n' →
          n < n' → hasMediaFiles fs (pathJoin mount d') = false) ∧
        findActualPath fs rel mount = some (pathJoin mount d)) ∧
    findActualPath demoFS "Release" "/movies" = some "/movies/Release (3)" := by
  constructor
  · intro fs mount rel entries hm hrel hstat hexact hex
    have hexists : fs.existsSync mount = true := by
      unfold FS.existsSync
      rw [hstat]
    have hread : fs.readdir mount = some entries := by
      unfold FS.readdir
      rw [hstat]
    have hdir : dirname (pathJoin mount rel) = mount := dirname_pathJoin mount rel hm hrel
    have hperm := sortByNumDesc_perm ((dirNamesOf entries).filterMap (fun x =>
        match numberedSuffix rel x with
        | some m => some (x, m)
        | none => none))
    have hpair := sortByNumDesc_pairwise ((dirNamesOf entries).filterMap (fun x =>
        match numberedSuffix rel x with
        | some m => some (x, m)
        | none => none))
    have hex' : ∃ v ∈ sortByNumDesc ((dirNamesOf entries).filterMap (fun x =>
        match numberedSuffix rel x with
        | some m => some (x, m)
        | none => none)), hasMediaFiles fs (pathJoin mount v.1) = true := by
      rcases hex with ⟨v, hv, hvm⟩
      exact ⟨v, hperm.mem_iff.mpr hv, hvm⟩
    obtain ⟨d, n, hdn, hdm, hhigh, hfirst⟩ := firstWithMedia_spec fs mount _ hpair hex'
    obtain ⟨hdmem, hdsuf⟩ := (mem_numbered_filterMap rel _ d n).mp (hperm.mem_iff.mp hdn)
    have hfnv : findNumberedVersion fs (pathJoin mount rel) rel =
        some (pathJoin mount d) := by
      simp only [findNumberedVersion, hdir, hexists, hread, if_true]
      exact hfirst
    have hexactph : exactMatchPhase fs mount (normalizeAlnum rel)
        (dirNamesOf entries) false = (none, false) :=
      exactMatchPhase_none fs mount _ _ false hexact
    refine ⟨d, n, hdmem, hdsuf, hdm, ?_, ?_⟩
    · intro d' n' hd' hs' hlt
      exact hhigh d' n'
        (hperm.mem_iff.mpr ((mem_numbered_filterMap rel _ d' n').mpr ⟨hd', hs'⟩)) hlt
    · simp only [findActualPath, hexists, hread, if_true, hexactph, Bool.false_eq_true,
        if_false, hfnv]
  · rfl

/-- Witness for C6's general part on a tree whose only siblings of `Rel`
are `Rel (2)` (empty) and `Rel (3)` (holding media). -/
theorem duplicateVersionResolution_witness :
    ∃ d n,
      d ∈ dirNamesOf [⟨"Other", true⟩, ⟨"Rel (2)", true⟩, ⟨"Rel (3)", true⟩] ∧
      numberedSuffix "Rel" d = some n ∧
      hasMediaFiles c6WitnessFS (pathJoin "/movies" d) = true ∧
      (∀ d' n', d' ∈ dirNamesOf [⟨"Other", true⟩, ⟨"Rel (2)", true⟩, ⟨"Rel (3)", true⟩] →
        numberedSuffix "Rel" d' = some n' → n < n' →
        hasMediaFiles c6WitnessFS (pathJoin "/movies" d') = false) ∧
      findActualPath c6WitnessFS "Rel" "/movies" = some (pathJoin "/movies" d) :=
  duplicateVersionResolution.1 c6WitnessFS "/movies" "Rel"
    [⟨"Other", true⟩, ⟨"Rel (2)", true⟩, ⟨"Rel (3)", true⟩]
    (by decide) (by decide) (by decide) (by decide)
    ⟨("Rel (3)", 3), by decide, by decide⟩
